import Mathlib

/-!
# Vespa deploy client (`client/go/vespa/deploy.go`)

A shallow embedding of the deploy API of the Vespa command line client and the
properties of it that are stated in the specification.

Modelling conventions.

* A Go `string` is a Lean `String`; the library functions of package `strings`
  that the source calls are written over the list of characters.  Every
  separator the source uses is ASCII, so splitting and replacing on characters
  agrees with Go's splitting and replacing on bytes.
* A Go `(T, error)` result is a `Result T`: the value, or a failure, which is
  the returned error or a run-time panic.
* The functions of `encoding/json` are a reader of JSON text into a tree and the
  rules by which Go stores such a tree in a struct, a slice or a map.
* The methods of the collaborators (`Target`, `Service`, `ApplicationPackage`,
  `util.HttpDo`) are oracles; a call to one of them is appended to a trace, and
  the oracle answers from the trace before the call and the arguments.
-/

namespace Vespa

/-! ## Package `strings` -/

/-- Pieces of `s` between the occurrences of the one-character separator `sep`,
as a list of character lists: `strings.Split(s, sep)` for a separator of length
one.  The empty string gives one empty piece. -/
def splitChars (sep : Char) : List Char → List (List Char)
  | [] => [[]]
  | c :: cs =>
    if c = sep then [] :: splitChars sep cs
    else
      match splitChars sep cs with
      | [] => [[c]]
      | p :: ps => (c :: p) :: ps

/-- Go `strings.Split(s, sep)` for a separator `sep` of one character. -/
def Split (s : String) (sep : Char) : List String :=
  (splitChars sep s.data).map String.mk

/-- Replace the non-overlapping occurrences of the non-empty `old` by `new`,
scanning from the left; `skip` counts the characters of a matched occurrence
that are still to be passed over. -/
def replaceChars (old new : List Char) : Nat → List Char → List Char
  | _, [] => []
  | skip + 1, _ :: cs => replaceChars old new skip cs
  | 0, c :: cs =>
    if old.isPrefixOf (c :: cs) then new ++ replaceChars old new (old.length - 1) cs
    else c :: replaceChars old new 0 cs

/-- Go `strings.ReplaceAll(s, old, new)` for a non-empty `old`. -/
def ReplaceAll (s old new : String) : String :=
  String.mk (replaceChars old.data new.data 0 s.data)

/-! ## Identity types -/

/-- Go `type ApplicationID struct`. -/
structure ApplicationID where
  Tenant : String
  Application : String
  Instance : String
  deriving DecidableEq, Repr

/-- Go `type ZoneID struct`. -/
structure ZoneID where
  Environment : String
  Region : String
  deriving DecidableEq, Repr

/-- Go `var DefaultApplication`. -/
def DefaultApplication : ApplicationID :=
  { Tenant := "default", Application := "application", Instance := "default" }

/-- Go `func (a ApplicationID) SerializedForm() string`: format `%s:%s:%s`. -/
def ApplicationID.SerializedForm (a : ApplicationID) : String :=
  a.Tenant ++ ":" ++ a.Application ++ ":" ++ a.Instance

/-- Go `func (a ApplicationID) String() string`: format `%s.%s.%s`. -/
def ApplicationID.String (a : ApplicationID) : String :=
  a.Tenant ++ "." ++ a.Application ++ "." ++ a.Instance

/-! ## Package `strconv` -/

/-- Value of a non-empty run of decimal digits, most significant first. -/
def parseDigits : List Char → Nat → Option Nat
  | [], acc => some acc
  | c :: cs, acc =>
    if c.isDigit then parseDigits cs (acc * 10 + (c.toNat - '0'.toNat)) else none

/-- Go `strconv.ParseInt(s, 10, 64)`: an optional sign, then at least one
decimal digit and nothing else; `none` is the syntax or range error. -/
def ParseInt (s : String) : Option Int :=
  match s.data with
  | [] => none
  | '+' :: ds =>
    match ds, parseDigits ds 0 with
    | _ :: _, some n => if n < 2 ^ 63 then some (Int.ofNat n) else none
    | _, _ => none
  | '-' :: ds =>
    match ds, parseDigits ds 0 with
    | _ :: _, some n => if n ≤ 2 ^ 63 then some (- Int.ofNat n) else none
    | _, _ => none
  | ds =>
    match parseDigits ds 0 with
    | some n => if n < 2 ^ 63 then some (Int.ofNat n) else none
    | none => none

/-! ## Package `encoding/json`: reading a value -/

/-- A JSON value as the decoder reads it.  A number keeps its literal text; an
object keeps its members in document order, repeated keys included. -/
inductive JSON where
  | null
  | bool (b : Bool)
  | num (lit : String)
  | str (s : String)
  | arr (elems : List JSON)
  | obj (members : List (String × JSON))
  deriving Repr

/-- The scanner of `encoding/json` refuses input nested deeper than this. -/
def maxNestingDepth : Nat := 10000

/-- The four characters JSON treats as insignificant whitespace. -/
def isSpace (c : Char) : Bool :=
  c = ' ' || c = '\t' || c = '\r' || c = '\n'

/-- Drop leading whitespace. -/
def skipSpace : List Char → List Char
  | [] => []
  | c :: cs => if isSpace c then skipSpace cs else c :: cs

/-- Value of one hexadecimal digit. -/
def hexVal (c : Char) : Option Nat :=
  if '0' ≤ c ∧ c ≤ '9' then some (c.toNat - '0'.toNat)
  else if 'a' ≤ c ∧ c ≤ 'f' then some (c.toNat - 'a'.toNat + 10)
  else if 'A' ≤ c ∧ c ≤ 'F' then some (c.toNat - 'A'.toNat + 10)
  else none

/-- Value of the four hexadecimal digits of a `\u` escape (`getu4`). -/
def hex4 (a b c d : Char) : Option Nat :=
  match hexVal a, hexVal b, hexVal c, hexVal d with
  | some x, some y, some z, some w => some (((x * 16 + y) * 16 + z) * 16 + w)
  | _, _, _, _ => none

/-- Whether a UTF-16 code unit is a surrogate. -/
def isSurrogate (n : Nat) : Bool := 0xD800 ≤ n && n < 0xE000

/-- Go `utf16.DecodeRune`: the code point of a surrogate pair, or U+FFFD. -/
def decodeSurrogates (hi lo : Nat) : Nat :=
  if 0xD800 ≤ hi ∧ hi < 0xDC00 ∧ 0xDC00 ≤ lo ∧ lo < 0xE000 then
    (hi - 0xD800) * 1024 + (lo - 0xDC00) + 0x10000
  else 0xFFFD

/-- The code unit of a `\uXXXX` escape at the head of the input, if one is
there. -/
def peekU4 : List Char → Option Nat
  | '\\' :: 'u' :: a :: b :: c :: d :: _ => hex4 a b c d
  | _ => none

/-- Where the scanner is inside a string literal: in plain text, right after a
backslash, or before the last `left` hexadecimal digits of a `\u` escape. -/
inductive StringState where
  | plain
  | escape
  | hex (left : Nat)
  deriving DecidableEq, Repr

/-- The characters that may follow a backslash, `u` apart. -/
def isSimpleEscape (c : Char) : Bool :=
  c = '"' || c = '\\' || c = '/' || c = 'b' || c = 'f' || c = 'n' || c = 'r' || c = 't'

/-- Scan a string literal after its opening quote, as the scanner does: the
raw text up to the closing quote (accumulated in reverse in `acc`) and the
input after the quote.  A control character, a bad escape and the end of the
input are errors. -/
def scanString : StringState → List Char → List Char → Option (List Char × List Char)
  | _, [], _ => none
  | StringState.plain, c :: r, acc =>
    if c = '"' then some (acc.reverse, r)
    else if c = '\\' then scanString StringState.escape r (c :: acc)
    else if c.toNat < 0x20 then none
    else scanString StringState.plain r (c :: acc)
  | StringState.escape, c :: r, acc =>
    if isSimpleEscape c then scanString StringState.plain r (c :: acc)
    else if c = 'u' then scanString (StringState.hex 4) r (c :: acc)
    else none
  | StringState.hex left, c :: r, acc =>
    if (hexVal c).isSome then
      scanString (if left ≤ 1 then StringState.plain else StringState.hex (left - 1)) r (c :: acc)
    else none

/-- The character a simple escape stands for. -/
def unescape (c : Char) : Char :=
  if c = 'b' then '\x08'
  else if c = 'f' then '\x0c'
  else if c = 'n' then '\n'
  else if c = 'r' then '\r'
  else if c = 't' then '\t'
  else c

/-- Decode the raw text of a scanned string literal (`unquote`); `skip` counts
the characters of an escape that are still to be passed over.  A `\u` escape
that is a surrogate decodes with the `\u` escape after it to the code point of
the pair when the two form one; otherwise it decodes to U+FFFD alone. -/
def unquote : Nat → List Char → List Char
  | _, [] => []
  | skip + 1, _ :: r => unquote skip r
  | 0, c :: r =>
    if c = '\\' then
      match peekU4 (c :: r) with
      | some hi =>
        if isSurrogate hi then
          match peekU4 (r.drop 5) with
          | some lo =>
            if decodeSurrogates hi lo = 0xFFFD then Char.ofNat 0xFFFD :: unquote 5 r
            else Char.ofNat (decodeSurrogates hi lo) :: unquote 11 r
          | none => Char.ofNat 0xFFFD :: unquote 5 r
        else Char.ofNat hi :: unquote 5 r
      | none =>
        match r with
        | e :: _ => unescape e :: unquote 1 r
        | [] => []
    else c :: unquote 0 r

/-- Read a string literal after its opening quote: its decoded text and the
input after the closing quote. -/
def readString (cs : List Char) : Option (String × List Char) :=
  match scanString StringState.plain cs [] with
  | none => none
  | some (raw, r) => some (String.mk (unquote 0 raw), r)

/-- Read the optional exponent of a number literal. -/
def scanExp (acc : List Char) : List Char → Option (List Char × List Char)
  | [] => some (acc, [])
  | e :: r =>
    if e = 'e' ∨ e = 'E' then
      let sr : List Char × List Char :=
        match r with
        | '+' :: r1 => (['+'], r1)
        | '-' :: r1 => (['-'], r1)
        | _ => ([], r)
      let ds := sr.2.span Char.isDigit
      if ds.1 = [] then none else some (acc ++ e :: sr.1 ++ ds.1, ds.2)
    else some (acc, e :: r)

/-- Read the optional fraction of a number literal, then the exponent. -/
def scanFrac (acc : List Char) : List Char → Option (List Char × List Char)
  | '.' :: r =>
    let ds := r.span Char.isDigit
    if ds.1 = [] then none else scanExp (acc ++ '.' :: ds.1) ds.2
  | cs => scanExp acc cs

/-- Read a number literal: its text and the input after it. -/
def scanNumber (cs : List Char) : Option (List Char × List Char) :=
  let sr : List Char × List Char :=
    match cs with
    | '-' :: r => (['-'], r)
    | _ => ([], cs)
  match sr.2 with
  | [] => none
  | c :: r =>
    if c = '0' then scanFrac (sr.1 ++ ['0']) r
    else if '1' ≤ c ∧ c ≤ '9' then
      let ds := r.span Char.isDigit
      scanFrac (sr.1 ++ c :: ds.1) ds.2
    else none

/-- Read the elements of an array after the first one has been found to exist:
`pv` reads one value; `n` bounds the number of elements left to read. -/
def parseElements (pv : List Char → Option (JSON × List Char)) :
    Nat → List Char → List JSON → Option (List JSON × List Char)
  | 0, _, _ => none
  | n + 1, cs, acc =>
    match pv cs with
    | none => none
    | some (v, r) =>
      match skipSpace r with
      | [] => none
      | sep :: r1 =>
        if sep = ',' then parseElements pv n r1 (v :: acc)
        else if sep = ']' then some ((v :: acc).reverse, r1)
        else none

/-- Read the members of an object after the first one has been found to
exist: `pv` reads one value; `n` bounds the number of members left to read. -/
def parseMembers (pv : List Char → Option (JSON × List Char)) :
    Nat → List Char → List (String × JSON) → Option (List (String × JSON) × List Char)
  | 0, _, _ => none
  | n + 1, cs, acc =>
    match skipSpace cs with
    | [] => none
    | q :: r =>
      if q = '"' then
        match readString r with
        | none => none
        | some (k, r1) =>
          match skipSpace r1 with
          | [] => none
          | colon :: r2 =>
            if colon = ':' then
              match pv r2 with
              | none => none
              | some (v, r3) =>
                match skipSpace r3 with
                | [] => none
                | sep :: r4 =>
                  if sep = ',' then parseMembers pv n r4 ((k, v) :: acc)
                  else if sep = '}' then some (((k, v) :: acc).reverse, r4)
                  else none
            else none
      else none

/-- Read one JSON value after optional whitespace and return it with the rest
of the input; `depth` is the number of array and object levels still allowed.
An array or object has fewer elements than characters, so the element bound
given to `parseElements` and `parseMembers` is never reached. -/
def parseValue : Nat → List Char → Option (JSON × List Char)
  | depth, cs =>
    match skipSpace cs with
    | [] => none
    | c :: r =>
      if c = '"' then
        match readString r with
        | none => none
        | some (s, r1) => some (JSON.str s, r1)
      else if c = '[' then
        match depth with
        | 0 => none
        | d + 1 =>
          match skipSpace r with
          | [] => none
          | c1 :: r1 =>
            if c1 = ']' then some (JSON.arr [], r1)
            else
              match parseElements (fun x => parseValue d x) (c1 :: r1).length (c1 :: r1) [] with
              | none => none
              | some (vs, r2) => some (JSON.arr vs, r2)
      else if c = '{' then
        match depth with
        | 0 => none
        | d + 1 =>
          match skipSpace r with
          | [] => none
          | c1 :: r1 =>
            if c1 = '}' then some (JSON.obj [], r1)
            else
              match parseMembers (fun x => parseValue d x) (c1 :: r1).length (c1 :: r1) [] with
              | none => none
              | some (ms, r2) => some (JSON.obj ms, r2)
      else if "true".data.isPrefixOf (c :: r) then some (JSON.bool true, r.drop 3)
      else if "false".data.isPrefixOf (c :: r) then some (JSON.bool false, r.drop 4)
      else if "null".data.isPrefixOf (c :: r) then some (JSON.null, r.drop 3)
      else
        match scanNumber (c :: r) with
        | none => none
        | some (lit, r1) => some (JSON.num (String.mk lit), r1)

/-- Go `json.Unmarshal` and `json.Indent` accept an input that is exactly one
value with whitespace around it. -/
def parseDocument (data : String) : Option JSON :=
  match parseValue maxNestingDepth data.data with
  | some (v, rest) => if skipSpace rest = [] then some v else none
  | none => none

/-- The members of the object a `json.Decoder` reads at the head of a stream;
the decoder stops at the closing brace and does not look at what follows.
`none` when the stream does not start with a well-formed object. -/
def decodeObject (data : String) : Option (List (String × JSON)) :=
  match parseValue maxNestingDepth data.data with
  | some (JSON.obj ms, _) => some ms
  | _ => none

/-! ## Package `encoding/json`: storing into Go values -/

/-- Indexing the Go map that `json.Unmarshal` fills from an object: of the
members with this key the last one read stays. -/
def mapIndex (m : List (String × JSON)) (key : String) : Option JSON :=
  m.foldl (fun found kv => if kv.1 = key then some kv.2 else found) none

/-- A character of a struct field name matches a character of a key when they
are equal up to ASCII letter case, or the field has `s` and the key the long s
U+017F, or the field has `k` and the key the Kelvin sign U+212A. -/
def foldEqChar (f k : Char) : Bool :=
  f.toLower = k.toLower || (f.toLower = 's' && k = '\u017f') || (f.toLower = 'k' && k = '\u212a')

/-- Case-insensitive match of an ASCII field name against a key. -/
def equalFold : List Char → List Char → Bool
  | [], [] => true
  | f :: fs, k :: ks => foldEqChar f k && equalFold fs ks
  | _, _ => false

/-- The struct field a key is stored in: the field of exactly that name, else
the first field matching case-insensitively. -/
def findField (fields : List String) (key : String) : Option String :=
  if fields.contains key then some key
  else fields.find? (fun f => equalFold f.data key.data)

/-- Store a JSON value in a Go `string`: a string is stored, `null` and values
of another type leave the variable as it is. -/
def storeString (old : String) : JSON → String
  | JSON.str s => s
  | _ => old

/-- Store a JSON value in a Go `int64`: a number whose literal `ParseInt`
accepts is stored, everything else leaves the variable as it is. -/
def storeInt64 (old : Int) : JSON → Int
  | JSON.num lit =>
    match ParseInt lit with
    | some n => n
    | none => old
  | _ => old

/-- Go `type LogLinePrepareResponse struct`. -/
structure LogLinePrepareResponse where
  Time : Int
  Level : String
  Message : String
  deriving DecidableEq, Repr

/-- Go `type PrepareResult struct`; `ID` is the session or run id. -/
structure PrepareResult where
  ID : Int
  LogLines : List LogLinePrepareResponse
  deriving DecidableEq, Repr

/-- The zero value of `LogLinePrepareResponse`. -/
def LogLinePrepareResponse.zero : LogLinePrepareResponse :=
  { Time := 0, Level := "", Message := "" }

/-- Store one member of a JSON object in a `LogLinePrepareResponse`. -/
def storeLogLineMember (l : LogLinePrepareResponse) (kv : String × JSON) :
    LogLinePrepareResponse :=
  match findField ["Time", "Level", "Message"] kv.1 with
  | some "Time" => { l with Time := storeInt64 l.Time kv.2 }
  | some "Level" => { l with Level := storeString l.Level kv.2 }
  | some "Message" => { l with Message := storeString l.Message kv.2 }
  | _ => l

/-- Store a JSON value in a `LogLinePrepareResponse`: the members of an object
are stored in order, anything else leaves the struct as it is. -/
def storeLogLine (l : LogLinePrepareResponse) : JSON → LogLinePrepareResponse
  | JSON.obj ms => ms.foldl storeLogLineMember l
  | _ => l

/-- A Go slice of log lines: its backing array (as long as the capacity) and
its length. -/
structure LogSlice where
  backing : List LogLinePrepareResponse
  len : Nat
  deriving DecidableEq, Repr

/-- The elements of a slice. -/
def LogSlice.elems (s : LogSlice) : List LogLinePrepareResponse :=
  s.backing.take s.len

/-- The nil slice. -/
def LogSlice.nil : LogSlice := { backing := [], len := 0 }

/-- Store element `i` of a JSON array in a slice, as the decoder does: when
`i` has reached the capacity the slice moves to a new zeroed backing array of
one and a half times the capacity (at least 4) that keeps the elements below
the length; then the length is raised to `i + 1` if it is not beyond `i`
already, and the value is stored into element `i` as it then is. -/
def storeElement (s : LogSlice) (i : Nat) (v : JSON) : LogSlice :=
  let cap := s.backing.length
  let newcap := if cap + cap / 2 < 4 then 4 else cap + cap / 2
  let grown : List LogLinePrepareResponse :=
    if i ≥ cap then
      s.backing.take s.len ++ List.replicate (newcap - s.len) LogLinePrepareResponse.zero
    else s.backing
  let len := if i ≥ s.len then i + 1 else s.len
  { backing := grown.set i (storeLogLine (grown.getD i LogLinePrepareResponse.zero) v),
    len := len }

/-- Store the elements of a JSON array from index `i` on. -/
def storeElements : LogSlice → Nat → List JSON → LogSlice
  | s, _, [] => s
  | s, i, v :: vs => storeElements (storeElement s i v) (i + 1) vs

/-- Store a JSON value in a slice of log lines: an array is stored element by
element into the existing slice, which is then cut to the number of elements
(an empty array gives a fresh empty slice); `null` gives the nil slice; values
of another type leave the slice as it is. -/
def storeLogSlice (s : LogSlice) : JSON → LogSlice
  | JSON.arr vs =>
    let s1 := storeElements s 0 vs
    if vs.length = 0 then LogSlice.nil
    else if vs.length < s1.len then { s1 with len := vs.length }
    else s1
  | JSON.null => LogSlice.nil
  | _ => s

/-- The anonymous struct `jsonResponse` of `uploadApplicationPackage`, with
fields tagged `session-id`, `run` and `log`. -/
structure JsonResponse where
  SessionID : String
  RunID : Int
  Log : LogSlice
  deriving DecidableEq, Repr

/-- The names of the fields of `jsonResponse` in JSON, from their tags. -/
def jsonResponseFields : List String := ["session-id", "run", "log"]

/-- The struct `jsonResponse` as it is before the decoding: the zero value with
the session id set to "0". -/
def initialJsonResponse : JsonResponse := { SessionID := "0", RunID := 0, Log := LogSlice.nil }

/-- Store one member of a JSON object in a `JsonResponse`. -/
def storeResponseMember (r : JsonResponse) (kv : String × JSON) : JsonResponse :=
  match findField jsonResponseFields kv.1 with
  | some "session-id" => { r with SessionID := storeString r.SessionID kv.2 }
  | some "run" => { r with RunID := storeInt64 r.RunID kv.2 }
  | some "log" => { r with Log := storeLogSlice r.Log kv.2 }
  | _ => r

/-- Go `jsonDec.Decode(&jsonResponse)` with the returned error dropped: when
the stream starts with a well-formed object its members are stored in order;
in every other case (syntax error, `null`, a value that is not an object) the
struct stays as it was. -/
def Decode (body : String) (r : JsonResponse) : JsonResponse :=
  match decodeObject body with
  | some ms => ms.foldl storeResponseMember r
  | none => r

/-! ## Targets, packages and the HTTP transport -/

/-- Go `type Deployment struct`.  The `System` type is declared outside
`deploy.go` and nothing here reads it; it is kept by name. -/
structure Deployment where
  System : String
  Application : ApplicationID
  Zone : ZoneID
  deriving DecidableEq, Repr

/-- Go `time.Duration`, in nanoseconds. -/
abbrev Duration := Int

/-- Go `time.Second`. -/
def Second : Duration := 1000000000

/-- Go `time.Minute`. -/
def Minute : Duration := 60 * Second

/-- Modelled from the spec: the target type constant `TargetCloud`, declared
outside `deploy.go`; the spec names the type `cloud`. -/
def TargetCloud : String := "cloud"

/-- Modelled from the spec: the target type constant `TargetHosted`, declared
outside `deploy.go`; the spec names the type `hosted`. -/
def TargetHosted : String := "hosted"

/-- Modelled from the spec: the service name constant `DeployService`, declared
outside `deploy.go`; the spec calls it the deploy service. -/
def DeployService : String := "deploy"

/-- The errors `deploy.go` creates, one constructor for each `fmt.Errorf` with
the values its format prints, and the errors it passes on. -/
inductive Error where
  /-- Format `invalid application: %q` -/
  | invalidApplication (s : String)
  /-- Format `invalid zone: %q` -/
  | invalidZone (s : String)
  /-- Format `prepare is not supported with %s target` -/
  | prepareNotSupported (targetType : String)
  /-- Format `activate is not supported with %s target` -/
  | activateNotSupported (targetType : String)
  /-- Format `%s: missing zone`, printing the options: deployment and target type -/
  | missingZone (deployment : Deployment) (targetType : String)
  /-- Format `%s: submit is unsupported by %s target` -/
  | submitUnsupported (deployment : Deployment) (targetType : String)
  /-- Format `%s: missing certificate in package` -/
  | missingCertificate (deployment : Deployment) (targetType : String)
  /-- Format `invalid application package (%s)\n%s`: status line and extracted text -/
  | invalidApplicationPackage (status : String) (text : String)
  /-- Format `error from %s at %s (%s):\n%s`: service description (printed in lower
  case), host, status line and body -/
  | service (description : String) (host : String) (status : String) (body : String)
  /-- The `*strconv.NumError` of `strconv.ParseInt` for this input -/
  | parseInt (s : String)
  /-- An error made by a collaborator or by a library function -/
  | external (msg : String)
  deriving DecidableEq, Repr

/-- How a call ends without a value: it returns an error (in `deploy.go` always
next to the zero value of the result), or it panics; a panic is labelled with
the expression that raised it. -/
inductive Failure where
  | error (e : Error)
  | panic (site : String)
  deriving DecidableEq, Repr

/-- Outcome of a Go call: a value, or a failure. -/
inductive Result (α : Type) where
  | ok (v : α)
  | fail (f : Failure)
  deriving DecidableEq, Repr

/-- A parsed `*url.URL`: its host and the text `String()` renders. -/
structure URL where
  Host : String
  Text : String
  deriving DecidableEq, Repr

/-- An `io.Reader`: the bytes it yields and the error, if any, that ends the
reading instead of end-of-file. -/
structure Reader where
  data : String
  err : Option Error
  deriving DecidableEq, Repr

/-- One part of a multipart body: a plain form field (`CreateFormField`) has
no filename, a file part (`CreateFormFile`) has one. -/
structure Part where
  fieldname : String
  filename : Option String
  content : String
  deriving DecidableEq, Repr

/-- The body of an `http.Request`. -/
inductive RequestBody where
  | none
  | reader (r : Reader)
  | multipart (boundary : String) (parts : List Part)
  deriving DecidableEq, Repr

/-- The fields of `http.Request` that `deploy.go` sets. -/
structure Request where
  URL : URL
  Method : String
  Header : List (String × String)
  Body : RequestBody
  deriving DecidableEq, Repr

/-- The fields of `http.Response` that `deploy.go` reads; `Body` is what
reading the body to its end yields. -/
structure Response where
  StatusCode : Int
  Status : String
  Body : String
  deriving DecidableEq, Repr

/-- A call to a collaborator, with its arguments. -/
inductive Call where
  /-- Call `Target.Service(name, timeout, sessionOrRunID, cluster)` -/
  | Service (name : String) (timeout : Duration) (sessionOrRunID : Int) (cluster : String)
  /-- Call `ApplicationPackage.zipReader(test)` -/
  | zipReader (test : Bool)
  /-- Call `Target.SignRequest(request, keyID)` -/
  | SignRequest (request : Request) (keyID : String)
  /-- Call `Service.Do(request, timeout)` -/
  | Do (request : Request) (timeout : Duration)
  /-- Call `util.HttpDo(request, timeout, description)` -/
  | HttpDo (request : Request) (timeout : Duration) (description : String)
  deriving DecidableEq, Repr

/-- The calls made so far, oldest first.  A collaborator answers a call from
the calls made before it and the arguments. -/
abbrev Trace := List Call

/-- A `*Service` as `Target.Service` returns it; `Do` and `Description` are its
methods. -/
structure Service where
  BaseURL : String
  Description : String
  Do : Trace → Request → Duration → Result Response

/-- The `Target` interface; `targetType` is its method `Type()`.
`SignRequest` returns the request as signing leaves it. -/
structure Target where
  targetType : String
  Deployment : Deployment
  Service : Trace → String → Duration → Int → String → Result Vespa.Service
  SignRequest : Trace → Request → String → Result Request

/-- The `ApplicationPackage` methods `deploy.go` calls. -/
structure ApplicationPackage where
  HasCertificate : Bool
  zipReader : Trace → Bool → Result Reader

/-- Go `type DeploymentOptions struct`. -/
structure DeploymentOptions where
  Target : Target
  ApplicationPackage : ApplicationPackage
  Timeout : Duration

/-- What the package functions use from outside the options: `util.HttpDo`,
`url.Parse`, the layout `json.Indent` gives a valid document with a four-space
indent, and the boundary a new `multipart.Writer` draws. -/
structure World where
  HttpDo : Trace → Request → Duration → String → Result Response
  urlParse : String → Result URL
  indentLayout : String → String
  boundary : String

/-- Go `func (d *DeploymentOptions) IsCloud() bool`. -/
def DeploymentOptions.IsCloud (d : DeploymentOptions) : Bool :=
  d.Target.targetType = TargetCloud || d.Target.targetType = TargetHosted

/-- Go `func (d *DeploymentOptions) url(path string) (*url.URL, error)`. -/
def DeploymentOptions.url (w : World) (d : DeploymentOptions) (path : String) (t : Trace) :
    Result URL × Trace :=
  match d.Target.Service t DeployService 0 0 "" with
  | Result.fail f => (Result.fail f, t ++ [Call.Service DeployService 0 0 ""])
  | Result.ok service =>
    (w.urlParse (service.BaseURL ++ path), t ++ [Call.Service DeployService 0 0 ""])

/-- Go `func ApplicationFromString(s string) (ApplicationID, error)`. -/
def ApplicationFromString (s : String) : Result ApplicationID :=
  match Split s '.' with
  | [p0, p1, p2] => Result.ok { Tenant := p0, Application := p1, Instance := p2 }
  | _ => Result.fail (Failure.error (Error.invalidApplication s))

/-- Go `func ZoneFromString(s string) (ZoneID, error)`. -/
def ZoneFromString (s : String) : Result ZoneID :=
  match Split s '.' with
  | [p0, p1] => Result.ok { Environment := p0, Region := p1 }
  | _ => Result.fail (Failure.error (Error.invalidZone s))

/-! ## Response classification -/

/-- Go `json.Indent(&dst, src, "", "    ")`: the indented text of a valid
document, `none` (the parse error) for anything else. -/
def Indent (w : World) (src : String) : Option String :=
  match parseDocument src with
  | some _ => some (w.indentLayout src)
  | none => none

/-- Modelled from the spec: `util.ReaderToJSON`, declared outside `deploy.go`:
the raw body reformatted as pretty JSON if possible, else verbatim. -/
def ReaderToJSON (w : World) (body : String) : String :=
  match Indent w body with
  | some pretty => pretty
  | none => body

/-- Go `func extractError(reader io.Reader) string`.  The map `response` stays
nil unless the body is a document whose value is an object; indexing a nil map
gives the nil interface, as a missing key does.  The type assertion
`response["message"].(string)` panics when the value is not a string. -/
def extractError (w : World) (responseData : String) : Result String :=
  let response : List (String × JSON) :=
    match parseDocument responseData with
    | some (JSON.obj ms) => ms
    | _ => []
  match mapIndex response "error-code" with
  | some (JSON.str "INVALID_APPLICATION_PACKAGE") =>
    match mapIndex response "message" with
    | some (JSON.str message) => Result.ok (ReplaceAll message ": " ":\n")
    | _ => Result.fail (Failure.panic "response[\"message\"].(string)")
  | _ =>
    match Indent w responseData with
    | none => Result.ok responseData
    | some prettyJSON => Result.ok prettyJSON

/-- Go `func checkResponse(req, response, serviceDescription) error`; the
value `()` is the nil error.  Go's integer division truncates. -/
def checkResponse (w : World) (req : Request) (response : Response)
    (serviceDescription : String) : Result Unit :=
  if Int.tdiv response.StatusCode 100 = 4 then
    match extractError w response.Body with
    | Result.ok text =>
      Result.fail (Failure.error (Error.invalidApplicationPackage response.Status text))
    | Result.fail f => Result.fail f
  else if response.StatusCode ≠ 200 then
    Result.fail (Failure.error (Error.service serviceDescription req.URL.Host response.Status
      (ReaderToJSON w response.Body)))
  else Result.ok ()

/-- Go `func checkDeploymentOpts(opts DeploymentOptions) error`; `none` is the
nil error. -/
def checkDeploymentOpts (opts : DeploymentOptions) : Option Error :=
  if opts.Target.targetType = TargetCloud && !opts.ApplicationPackage.HasCertificate then
    some (Error.missingCertificate opts.Target.Deployment opts.Target.targetType)
  else none

/-! ## Protocol operations -/

/-- The request `uploadApplicationPackage` builds: a POST of the zipped package
to `url` with content type `application/zip`. -/
def uploadRequest (url : URL) (zipReader : Reader) : Request :=
  { URL := url, Method := "POST", Header := [("Content-Type", "application/zip")],
    Body := RequestBody.reader zipReader }

/-- The statements of `uploadApplicationPackage` after the response has
arrived: the struct `jsonResponse` with its default session id "0", the check of
the response, the decoding of the body with its error ignored, and the choice of
the id. -/
def reconcileResponse (w : World) (request : Request) (response : Response)
    (description : String) : Result PrepareResult :=
  let jsonResponse : JsonResponse := initialJsonResponse
  match checkResponse w request response description with
  | Result.fail f => Result.fail f
  | Result.ok _ =>
    let decoded := Decode response.Body jsonResponse
    if decoded.RunID = 0 then
      match ParseInt decoded.SessionID with
      | none => Result.fail (Failure.error (Error.parseInt decoded.SessionID))
      | some id => Result.ok { ID := id, LogLines := decoded.Log.elems }
    else Result.ok { ID := decoded.RunID, LogLines := decoded.Log.elems }

/-- Go `func uploadApplicationPackage(url *url.URL, opts DeploymentOptions)
(PrepareResult, error)`; its statements after `service.Do` are
`reconcileResponse`. -/
def uploadApplicationPackage (w : World) (url : URL) (opts : DeploymentOptions) (t : Trace) :
    Result PrepareResult × Trace :=
  let t1 := t ++ [Call.zipReader false]
  match opts.ApplicationPackage.zipReader t false with
  | Result.fail f => (Result.fail f, t1)
  | Result.ok zipReader =>
    let request := uploadRequest url zipReader
    let t2 := t1 ++ [Call.Service DeployService opts.Timeout 0 ""]
    match opts.Target.Service t1 DeployService opts.Timeout 0 "" with
    | Result.fail f => (Result.fail f, t2)
    | Result.ok service =>
      let keyID := opts.Target.Deployment.Application.SerializedForm
      let t3 := t2 ++ [Call.SignRequest request keyID]
      match opts.Target.SignRequest t2 request keyID with
      | Result.fail f => (Result.fail f, t3)
      | Result.ok signed =>
        let t4 := t3 ++ [Call.Do signed (Minute * 10)]
        match service.Do t3 signed (Minute * 10) with
        | Result.fail f => (Result.fail f, t4)
        | Result.ok response => (reconcileResponse w signed response service.Description, t4)

/-- Go `http.NewRequest(method, url, nil)`: the URL text is parsed again. -/
def NewRequest (w : World) (method : String) (url : String) : Result Request :=
  match w.urlParse url with
  | Result.fail f => Result.fail f
  | Result.ok u => Result.ok { URL := u, Method := method, Header := [], Body := RequestBody.none }

/-- Go `func Prepare(deployment DeploymentOptions) (PrepareResult, error)`. -/
def Prepare (w : World) (deployment : DeploymentOptions) (t : Trace) :
    Result PrepareResult × Trace :=
  if deployment.IsCloud then
    (Result.fail (Failure.error (Error.prepareNotSupported deployment.Target.targetType)), t)
  else
    match deployment.url w "/application/v2/tenant/default/session" t with
    | (Result.fail f, t1) => (Result.fail f, t1)
    | (Result.ok sessionURL, t1) =>
      match uploadApplicationPackage w sessionURL deployment t1 with
      | (Result.fail f, t2) => (Result.fail f, t2)
      | (Result.ok result, t2) =>
        match deployment.url w
          ("/application/v2/tenant/default/session/" ++ toString result.ID ++ "/prepared") t2 with
        | (Result.fail f, t3) => (Result.fail f, t3)
        | (Result.ok prepareURL, t3) =>
          match NewRequest w "PUT" prepareURL.Text with
          | Result.fail f => (Result.fail f, t3)
          | Result.ok req =>
            let serviceDescription := "Deploy service"
            let t4 := t3 ++ [Call.HttpDo req (Second * 30) serviceDescription]
            match w.HttpDo t3 req (Second * 30) serviceDescription with
            | Result.fail f => (Result.fail f, t4)
            | Result.ok response =>
              match checkResponse w req response serviceDescription with
              | Result.fail f => (Result.fail f, t4)
              | Result.ok _ => (Result.ok result, t4)

/-- Go `func Activate(sessionID int64, deployment DeploymentOptions) error`. -/
def Activate (w : World) (sessionID : Int) (deployment : DeploymentOptions) (t : Trace) :
    Result Unit × Trace :=
  if deployment.IsCloud then
    (Result.fail (Failure.error (Error.activateNotSupported deployment.Target.targetType)), t)
  else
    match deployment.url w
      ("/application/v2/tenant/default/session/" ++ toString sessionID ++ "/active") t with
    | (Result.fail f, t1) => (Result.fail f, t1)
    | (Result.ok u, t1) =>
      match NewRequest w "PUT" u.Text with
      | Result.fail f => (Result.fail f, t1)
      | Result.ok req =>
        let serviceDescription := "Deploy service"
        let t2 := t1 ++ [Call.HttpDo req (Second * 30) serviceDescription]
        match w.HttpDo t1 req (Second * 30) serviceDescription with
        | Result.fail f => (Result.fail f, t2)
        | Result.ok response => (checkResponse w req response serviceDescription, t2)

/-- The path `Deploy` computes before it resolves it, or the error it returns
instead (the statements of `Deploy` up to the call of `url`). -/
def deployPath (opts : DeploymentOptions) : Result String :=
  if opts.IsCloud then
    match checkDeploymentOpts opts with
    | some err => Result.fail (Failure.error err)
    | none =>
      if opts.Target.Deployment.Zone.Environment = "" || opts.Target.Deployment.Zone.Region = "" then
        Result.fail (Failure.error
          (Error.missingZone opts.Target.Deployment opts.Target.targetType))
      else
        Result.ok ("/application/v4/tenant/" ++ opts.Target.Deployment.Application.Tenant
          ++ "/application/" ++ opts.Target.Deployment.Application.Application
          ++ "/instance/" ++ opts.Target.Deployment.Application.Instance
          ++ "/deploy/" ++ opts.Target.Deployment.Zone.Environment
          ++ "-" ++ opts.Target.Deployment.Zone.Region)
  else Result.ok "/application/v2/tenant/default/prepareandactivate"

/-- Go `func Deploy(opts DeploymentOptions) (PrepareResult, error)`. -/
def Deploy (w : World) (opts : DeploymentOptions) (t : Trace) : Result PrepareResult × Trace :=
  match deployPath opts with
  | Result.fail f => (Result.fail f, t)
  | Result.ok path =>
    match opts.url w path t with
    | (Result.fail f, t1) => (Result.fail f, t1)
    | (Result.ok u, t1) => uploadApplicationPackage w u opts t1

/-- Go `func copyToPart(dst *multipart.Writer, src io.Reader, fieldname,
filename string) error`, returning the parts of the writer after the call.
Creating a part in a writer over a `bytes.Buffer` does not fail; copying fails
when reading `src` does. -/
def copyToPart (dst : List Part) (src : Reader) (fieldname filename : String) :
    Result (List Part) :=
  let part : Part :=
    if filename = "" then { fieldname := fieldname, filename := none, content := src.data }
    else { fieldname := fieldname, filename := some filename, content := src.data }
  match src.err with
  | some err => Result.fail (Failure.error err)
  | none => Result.ok (dst ++ [part])

/-- Go `strings.NewReader(s)`. -/
def NewReader (s : String) : Reader := { data := s, err := none }

/-- Go `func Submit(opts DeploymentOptions) error`. -/
def Submit (w : World) (opts : DeploymentOptions) (t : Trace) : Result Unit × Trace :=
  if !opts.IsCloud then
    (Result.fail (Failure.error
      (Error.submitUnsupported opts.Target.Deployment opts.Target.targetType)), t)
  else
    match checkDeploymentOpts opts with
    | some err => (Result.fail (Failure.error err), t)
    | none =>
      let path := "/application/v4/tenant/" ++ opts.Target.Deployment.Application.Tenant
        ++ "/application/" ++ opts.Target.Deployment.Application.Application ++ "/submit"
      match opts.url w path t with
      | (Result.fail f, t1) => (Result.fail f, t1)
      | (Result.ok u, t1) =>
        match copyToPart [] (NewReader "{}") "submitOptions" "" with
        | Result.fail f => (Result.fail f, t1)
        | Result.ok parts1 =>
          let t2 := t1 ++ [Call.zipReader false]
          match opts.ApplicationPackage.zipReader t1 false with
          | Result.fail f => (Result.fail f, t2)
          | Result.ok applicationZip =>
            match copyToPart parts1 applicationZip "applicationZip" "application.zip" with
            | Result.fail f => (Result.fail f, t2)
            | Result.ok parts2 =>
              let t3 := t2 ++ [Call.zipReader true]
              match opts.ApplicationPackage.zipReader t2 true with
              | Result.fail f => (Result.fail f, t3)
              | Result.ok testApplicationZip =>
                match copyToPart parts2 testApplicationZip "applicationTestZip"
                  "application-test.zip" with
                | Result.fail f => (Result.fail f, t3)
                | Result.ok parts3 =>
                  let request : Request :=
                    { URL := u, Method := "POST",
                      Header := [("Content-Type", "multipart/form-data; boundary=" ++ w.boundary)],
                      Body := RequestBody.multipart w.boundary parts3 }
                  let serviceDescription := "Submit service"
                  let sigKeyId := opts.Target.Deployment.Application.SerializedForm
                  let t4 := t3 ++ [Call.SignRequest request sigKeyId]
                  match opts.Target.SignRequest t3 request sigKeyId with
                  | Result.fail f => (Result.fail f, t4)
                  | Result.ok signed =>
                    let t5 := t4 ++ [Call.HttpDo signed (Minute * 10) sigKeyId]
                    match w.HttpDo t4 signed (Minute * 10) sigKeyId with
                    | Result.fail f => (Result.fail f, t5)
                    | Result.ok response =>
                      (checkResponse w signed response serviceDescription, t5)

/-! ## A concrete world

Collaborators that always succeed, used to run the operations on concrete
inputs. -/

/-- A service at a fixed base URL that answers every request with `response`. -/
def sampleService (response : Response) : Service :=
  { BaseURL := "http://127.0.0.1:19071",
    Description := "Deploy API",
    Do := fun _ _ _ => Result.ok response }

/-- A target of the given type and zone for the default application, whose
service answers with `response` and whose signing leaves the request as it is. -/
def sampleTarget (targetType : String) (zone : ZoneID) (response : Response) : Target :=
  { targetType := targetType,
    Deployment := { System := "main", Application := DefaultApplication, Zone := zone },
    Service := fun _ _ _ _ _ => Result.ok (sampleService response),
    SignRequest := fun _ request _ => Result.ok request }

/-- A package with or without a certificate whose zip readers succeed. -/
def samplePackage (hasCertificate : Bool) : ApplicationPackage :=
  { HasCertificate := hasCertificate,
    zipReader := fun _ test =>
      Result.ok { data := if test then "test-zip" else "zip", err := none } }

/-- Options over `sampleTarget` and `samplePackage`. -/
def sampleOptions (targetType : String) (zone : ZoneID) (hasCertificate : Bool)
    (response : Response) : DeploymentOptions :=
  { Target := sampleTarget targetType zone response,
    ApplicationPackage := samplePackage hasCertificate,
    Timeout := 0 }

/-- A world whose `util.HttpDo` answers 200 with an empty body, whose
`url.Parse` accepts every text, and whose indentation leaves a document as it
is. -/
def sampleWorld : World :=
  { HttpDo := fun _ _ _ _ => Result.ok { StatusCode := 200, Status := "200 OK", Body := "" },
    urlParse := fun text => Result.ok { Host := "127.0.0.1:19071", Text := text },
    indentLayout := fun src => src,
    boundary := "boundary0" }

/-- The response `200 OK` with the given body. -/
def okResponse (body : String) : Response :=
  { StatusCode := 200, Status := "200 OK", Body := body }

/-- A URL of the sample service. -/
def sampleURL : URL :=
  { Host := "127.0.0.1:19071", Text := "http://127.0.0.1:19071/application/v2/tenant/default/session" }

/-- The request `uploadApplicationPackage` builds in the sample world. -/
def sampleUpload : Request :=
  { URL := sampleURL, Method := "POST", Header := [("Content-Type", "application/zip")],
    Body := RequestBody.reader { data := "zip", err := none } }

/-- The response `400 Bad Request` with the given body. -/
def badRequest (body : String) : Response :=
  { StatusCode := 400, Status := "400 Bad Request", Body := body }

/-- The body `{"session-id":"42","log":[{"time":1,"level":"info","message":"ok"}]}`. -/
def sessionBody : String :=
  "\x7b\"session-id\":\"42\",\"log\":[\x7b\"time\":1,\"level\":\"info\",\"message\":\"ok\"\x7d]\x7d"

/-- The body `{"run":7}`. -/
def runBody : String := "\x7b\"run\":7\x7d"

/-- The body `{"session-id":"abc"}`. -/
def badSessionBody : String := "\x7b\"session-id\":\"abc\"\x7d"

/-- The body `{"error-code":"INVALID_APPLICATION_PACKAGE","message":"a: b: c"}`. -/
def invalidPackageBody : String :=
  "\x7b\"error-code\":\"INVALID_APPLICATION_PACKAGE\",\"message\":\"a: b: c\"\x7d"

/-- The body `{"error-code":"INVALID_APPLICATION_PACKAGE"}`, which has no
`message`. -/
def noMessageBody : String := "\x7b\"error-code\":\"INVALID_APPLICATION_PACKAGE\"\x7d"

/-- The body `{"error-code":"INVALID_APPLICATION_PACKAGE","message":404}`, whose
`message` is a number. -/
def numericMessageBody : String :=
  "\x7b\"error-code\":\"INVALID_APPLICATION_PACKAGE\",\"message\":404\x7d"

/-- The body `{"run":7,"session-id":"abc"}`. -/
def runAndBadSessionBody : String := "\x7b\"run\":7,\"session-id\":\"abc\"\x7d"

/-- The body `{"session-id":""}`. -/
def emptySessionBody : String := "\x7b\"session-id\":\"\"\x7d"

/-- The body `{"run":7,"session-id":5}`, whose `session-id` is a number. -/
def numericSessionBody : String := "\x7b\"run\":7,\"session-id\":5\x7d"

/-- The body `{"run":7}x`: an object followed by a letter, which is not JSON. -/
def runThenTextBody : String := "\x7b\"run\":7\x7dx"

/-! ## The error of `Decode`

`uploadApplicationPackage` drops the error `jsonDec.Decode` returns; these
definitions say when there is one. -/

/-- Storing this JSON value in a Go `string` records a type error: anything but
a string and `null`. -/
def stringMismatch : JSON → Bool
  | JSON.str _ => false
  | JSON.null => false
  | _ => true

/-- Storing this JSON value in a Go `int64` records a type error: a number
whose literal `ParseInt` refuses, and anything else that is not `null`. -/
def int64Mismatch : JSON → Bool
  | JSON.num lit => (ParseInt lit).isNone
  | JSON.null => false
  | _ => true

/-- Storing this member in a `LogLinePrepareResponse` records a type error. -/
def logLineMemberMismatch (kv : String × JSON) : Bool :=
  match findField ["Time", "Level", "Message"] kv.1 with
  | some "Time" => int64Mismatch kv.2
  | some "Level" => stringMismatch kv.2
  | some "Message" => stringMismatch kv.2
  | _ => false

/-- Storing this JSON value in a `LogLinePrepareResponse` records a type
error. -/
def logLineMismatch : JSON → Bool
  | JSON.obj ms => ms.any logLineMemberMismatch
  | JSON.null => false
  | _ => true

/-- Storing this JSON value in a slice of log lines records a type error. -/
def logSliceMismatch : JSON → Bool
  | JSON.arr vs => vs.any logLineMismatch
  | JSON.null => false
  | _ => true

/-- Storing this member in a `JsonResponse` records a type error; a member
that belongs to no field is skipped without error. -/
def responseMemberMismatch (kv : String × JSON) : Bool :=
  match findField jsonResponseFields kv.1 with
  | some "session-id" => stringMismatch kv.2
  | some "run" => int64Mismatch kv.2
  | some "log" => logSliceMismatch kv.2
  | _ => false

/-- Whether `jsonDec.Decode(&jsonResponse)` returns an error: the stream has no
well-formed value at its head (syntax error or end of input), or the value is
not an object and not `null`, or a member of the object has a value of the wrong
type for its field.  The decoder reads one value and does not complain about
the bytes after it, so what follows the value plays no part. -/
def DecodeFails (body : String) : Bool :=
  match parseValue maxNestingDepth body.data with
  | none => true
  | some (JSON.obj ms, _) => ms.any responseMemberMismatch
  | some (JSON.null, _) => false
  | some (_, _) => true

/-! ## The fields of a response object, member by member

The wording of the spec for the `run`, the `session-id` and the log lines of a
response body, read off the members of its object: the last member whose key
matches the field (`findField`: the key is the name, or else equals it under
the case folding of `encoding/json`) and whose value has the type of the field
counts. -/

/-- The integer a JSON value holds for a Go `int64`: the value of a number
whose literal is a base-10 integer of the 64-bit range. -/
def int64Of : JSON → Option Int
  | JSON.num lit => ParseInt lit
  | _ => none

/-- The string a JSON value holds for a Go `string`. -/
def stringOf : JSON → Option String
  | JSON.str s => some s
  | _ => none

/-- What the members of an object say for a field: `read` of the last member
whose key names the field (as `findField` decides) and whose value `read`
accepts; `dflt` when the object has no such member. -/
def lastMemberValue {α : Type} (fields : List String) (field : String)
    (read : JSON → Option α) (dflt : α) (ms : List (String × JSON)) : α :=
  ((ms.filterMap
    (fun kv => if findField fields kv.1 = some field then read kv.2 else none)).getLast?).getD
      dflt

/-- The `run` of a response object: the integer of its last member keyed `run`
that holds an integer, 0 when it has none. -/
def runOf (ms : List (String × JSON)) : Int :=
  lastMemberValue jsonResponseFields "run" int64Of 0 ms

/-- The `session-id` of a response object: the string of its last member keyed
`session-id` that holds a string, "0" when it has none. -/
def sessionIdOf (ms : List (String × JSON)) : String :=
  lastMemberValue jsonResponseFields "session-id" stringOf "0" ms

/-- The log line an element of the `log` array stands for: time, level and
message read off the members of the element; the zero log line for an element
that is not an object. -/
def logLineOf : JSON → LogLinePrepareResponse
  | JSON.obj ms =>
    { Time := lastMemberValue ["Time", "Level", "Message"] "Time" int64Of 0 ms,
      Level := lastMemberValue ["Time", "Level", "Message"] "Level" stringOf "" ms,
      Message := lastMemberValue ["Time", "Level", "Message"] "Message" stringOf "" ms }
  | _ => LogLinePrepareResponse.zero

/-! ## Signing discipline of a trace -/

/-- Every send among `new`, the calls made after the trace `t`, is of a request
that the call right before it handed to `SignRequest` with the key `key` and
that signing returned. -/
def sendsSigned (sign : Trace → Request → String → Result Request) (key : String) :
    Trace → List Call → Prop
  | _, [] => True
  | t, c :: rest =>
    (∀ req, ((∃ d, c = Call.Do req d) ∨ (∃ d desc, c = Call.HttpDo req d desc)) →
      ∃ pre unsigned, t = pre ++ [Call.SignRequest unsigned key] ∧
        sign pre unsigned key = Result.ok req) ∧
    sendsSigned sign key (t ++ [c]) rest

/-- A failing `SignRequest` among `new`, the calls made after the trace `t`, is
the last call, and its failure is the outcome `result`. -/
def signFailureEnds {α : Type} (sign : Trace → Request → String → Result Request)
    (result : Result α) : Trace → List Call → Prop
  | _, [] => True
  | t, c :: rest =>
    (∀ unsigned key f, c = Call.SignRequest unsigned key →
      sign t unsigned key = Result.fail f → rest = [] ∧ result = Result.fail f) ∧
    signFailureEnds sign result (t ++ [c]) rest

/-- The wording of the spec for replacing every ": " by a colon and a line
feed: a space that directly follows a colon becomes a line feed and every other
character stays as it is.  `prev` is the character before the list. -/
def breakAfterColon : Option Char → List Char → List Char
  | _, [] => []
  | prev, c :: cs =>
    (if prev = some ':' ∧ c = ' ' then '\n' else c) :: breakAfterColon (some c) cs

/-- A reader of values that always leaves less input than it was given. -/
def Consuming (pv : List Char → Option (JSON × List Char)) : Prop :=
  ∀ cs v r, pv cs = some (v, r) → r.length < cs.length

/-! ## Splitting and joining -/

theorem splitChars_ne_nil (sep : Char) (cs : List Char) : splitChars sep cs ≠ [] := by
  cases cs with
  | nil => simp [splitChars]
  | cons c cs =>
    unfold splitChars
    split
    · simp
    · split <;> simp

/-- Joining the pieces with the separator gives the input back. -/
theorem splitChars_intercalate (sep : Char) (cs : List Char) :
    [sep].intercalate (splitChars sep cs) = cs := by
  induction cs with
  | nil => simp [splitChars, List.intercalate]
  | cons c cs ih =>
    unfold splitChars
    split
    · next h =>
      cases hs : splitChars sep cs with
      | nil => exact absurd hs (splitChars_ne_nil sep cs)
      | cons p ps =>
        rw [hs] at ih
        simp only [List.intercalate, List.intersperse, List.flatten] at ih ⊢
        simp [ih, h]
    · next h =>
      cases hs : splitChars sep cs with
      | nil => exact absurd hs (splitChars_ne_nil sep cs)
      | cons p ps =>
        rw [hs] at ih
        cases ps with
        | nil =>
          simp only [List.intercalate, List.intersperse, List.flatten] at ih ⊢
          simp at ih ⊢
          exact ih
        | cons q qs =>
          simp only [List.intercalate, List.intersperse, List.flatten] at ih ⊢
          simp at ih ⊢
          exact ih

/-- No piece contains the separator. -/
theorem splitChars_no_sep (sep : Char) (cs : List Char) :
    ∀ p ∈ splitChars sep cs, sep ∉ p := by
  induction cs with
  | nil => simp [splitChars]
  | cons c cs ih =>
    unfold splitChars
    split
    · next h =>
      intro p hp
      rcases List.mem_cons.mp hp with rfl | hp
      · simp
      · exact ih p hp
    · next h =>
      cases hs : splitChars sep cs with
      | nil => exact absurd hs (splitChars_ne_nil sep cs)
      | cons p ps =>
        rw [hs] at ih
        intro q hq
        rcases List.mem_cons.mp hq with rfl | hq
        · intro hmem
          rcases List.mem_cons.mp hmem with rfl | hmem
          · exact h rfl
          · exact ih p (List.mem_cons_self _ _) hmem
        · exact ih q (List.mem_cons_of_mem _ hq)

/-- Three pieces joined by dots spell the string they were split from. -/
theorem Split_three_join (s p0 p1 p2 : String) (h : Split s '.' = [p0, p1, p2]) :
    p0 ++ "." ++ p1 ++ "." ++ p2 = s := by
  unfold Split at h
  have hj := splitChars_intercalate '.' s.data
  cases hs : splitChars '.' s.data with
  | nil => rw [hs] at h; simp at h
  | cons c0 r0 =>
    cases r0 with
    | nil => rw [hs] at h; simp at h
    | cons c1 r1 =>
      cases r1 with
      | nil => rw [hs] at h; simp at h
      | cons c2 r2 =>
        cases r2 with
        | cons c3 r3 => rw [hs] at h; simp at h
        | nil =>
          rw [hs] at h hj
          simp only [List.map, List.cons.injEq, and_true] at h
          obtain ⟨h0, h1, h2⟩ := h
          subst h0 h1 h2
          apply String.ext
          simp only [String.data_append]
          simp only [List.intercalate, List.intersperse, List.flatten] at hj
          simpa using hj

/-- The pieces of a string that parsed as an application. -/
theorem ApplicationFromString_parts (s : String) (a : ApplicationID)
    (h : ApplicationFromString s = Result.ok a) :
    Split s '.' = [a.Tenant, a.Application, a.Instance] := by
  unfold ApplicationFromString at h
  split at h
  · next p0 p1 p2 hs =>
    cases h
    exact hs
  · cases h

/-- A string that does not split in three is refused as an application. -/
theorem ApplicationFromString_arity (s : String) (h : (Split s '.').length ≠ 3) :
    ApplicationFromString s = Result.fail (Failure.error (Error.invalidApplication s)) := by
  unfold ApplicationFromString
  split
  · next p0 p1 p2 hs => rw [hs] at h; simp at h
  · rfl

/-- A piece of a split holds no dot. -/
theorem Split_no_dot (s p : String) (h : p ∈ Split s '.') : '.' ∉ p.data := by
  unfold Split at h
  rcases List.mem_map.mp h with ⟨cs, hcs, rfl⟩
  exact splitChars_no_sep '.' s.data cs hcs

/-! ## Identity and zone parsing (claims C5, C6, C7) -/

/-- C5: a string that splits on "." into exactly three parts parses as an
application whose tenant, application and instance are the first, second and
third part unchanged, and `String()` of the result is the string itself. -/
theorem ApplicationFromString_String_roundtrip (s : String)
    (h : (Split s '.').length = 3) :
    ∃ a, ApplicationFromString s = Result.ok a ∧
      Split s '.' = [a.Tenant, a.Application, a.Instance] ∧ a.String = s := by
  match hs : Split s '.', h with
  | [p0, p1, p2], _ =>
    refine ⟨{ Tenant := p0, Application := p1, Instance := p2 }, ?_, rfl, ?_⟩
    · unfold ApplicationFromString
      rw [hs]
    · exact Split_three_join s p0 p1 p2 hs

theorem ApplicationFromString_String_roundtrip_witness :
    ∃ a, ApplicationFromString "tenant1.App-2.default" = Result.ok a ∧
      Split "tenant1.App-2.default" '.' = [a.Tenant, a.Application, a.Instance] ∧
      a.String = "tenant1.App-2.default" :=
  ApplicationFromString_String_roundtrip "tenant1.App-2.default" (by decide)

/-- C6: `ApplicationFromString` returns its error whenever the string does not
split on "." into exactly 3 parts, `ZoneFromString` returns its error whenever
the string does not split into exactly 2 parts, and a zone that parsed has the
first part as environment and the second as region. -/
theorem parsers_reject_wrong_part_count (s : String) :
    ((Split s '.').length ≠ 3 →
      ApplicationFromString s = Result.fail (Failure.error (Error.invalidApplication s))) ∧
    ((Split s '.').length ≠ 2 → ZoneFromString s = Result.fail (Failure.error (Error.invalidZone s))) ∧
    (∀ z, ZoneFromString s = Result.ok z → Split s '.' = [z.Environment, z.Region]) := by
  refine ⟨ApplicationFromString_arity s, ?_, ?_⟩
  · intro h
    unfold ZoneFromString
    split
    · next p0 p1 hs => rw [hs] at h; simp at h
    · rfl
  · intro z hz
    unfold ZoneFromString at hz
    split at hz
    · next p0 p1 hs =>
      cases hz
      exact hs
    · cases hz

theorem parsers_reject_wrong_part_count_witness :
    ApplicationFromString "a.b" = Result.fail (Failure.error (Error.invalidApplication "a.b")) ∧
    ZoneFromString "dev.us-east-1.x" = Result.fail (Failure.error (Error.invalidZone "dev.us-east-1.x")) ∧
    Split "dev.us-east-1" '.' = ["dev", "us-east-1"] :=
  ⟨(parsers_reject_wrong_part_count "a.b").1 (by decide),
   (parsers_reject_wrong_part_count "dev.us-east-1.x").2.1 (by decide),
   (parsers_reject_wrong_part_count "dev.us-east-1").2.2
     { Environment := "dev", Region := "us-east-1" } (by decide)⟩

/-- C7, as stated, fails: the string ".." splits into three empty parts and
parses, so not every application that `ApplicationFromString` returns has a
non-empty tenant, application and instance. -/
theorem ApplicationFromString_empty_parts :
    ApplicationFromString ".." =
        Result.ok { Tenant := "", Application := "", Instance := "" } ∧
    ¬ (∀ s a, ApplicationFromString s = Result.ok a →
        a.Tenant ≠ "" ∧ a.Application ≠ "" ∧ a.Instance ≠ "") := by
  refine ⟨by decide, ?_⟩
  intro h
  exact (h ".." { Tenant := "", Application := "", Instance := "" } (by decide)).1 rfl

/-- C7, amended: `ApplicationFromString` fails unless the string splits into
exactly 3 dot-separated parts, which may be empty; every application it returns
has the three parts as tenant, application and instance, and none of the three
contains a dot. -/
theorem ApplicationFromString_fields (s : String) :
    ((Split s '.').length ≠ 3 → ∃ e, ApplicationFromString s = Result.fail (Failure.error e)) ∧
    (∀ a, ApplicationFromString s = Result.ok a →
      Split s '.' = [a.Tenant, a.Application, a.Instance] ∧
      '.' ∉ a.Tenant.data ∧ '.' ∉ a.Application.data ∧ '.' ∉ a.Instance.data) := by
  refine ⟨fun h => ⟨_, ApplicationFromString_arity s h⟩, ?_⟩
  intro a ha
  have hp := ApplicationFromString_parts s a ha
  refine ⟨hp, ?_, ?_, ?_⟩ <;> apply Split_no_dot s <;> rw [hp] <;> simp

theorem ApplicationFromString_fields_witness :
    (∃ e, ApplicationFromString "a.b.c.d" = Result.fail (Failure.error e)) ∧
    (Split ".x." '.' = ["", "x", ""] ∧
      '.' ∉ "".data ∧ '.' ∉ "x".data ∧ '.' ∉ "".data) :=
  ⟨(ApplicationFromString_fields "a.b.c.d").1 (by decide),
   (ApplicationFromString_fields ".x.").2
     { Tenant := "", Application := "x", Instance := "" } (by decide)⟩

/-! ## Guards of the operations (claims C8, C9, C10) -/

/-- C8: when the target type is cloud or hosted (`IsCloud()` is true), `Prepare`
returns the unsupported-operation error (with no result) and `Activate` returns
the unsupported-operation error, for every session id, and neither calls a
collaborator: the trace of calls is left as it was. -/
theorem Prepare_Activate_unsupported_on_cloud (w : World) (opts : DeploymentOptions)
    (sessionID : Int) (t : Trace) (h : opts.IsCloud = true) :
    Prepare w opts t =
      (Result.fail (Failure.error (Error.prepareNotSupported opts.Target.targetType)), t) ∧
    Activate w sessionID opts t =
      (Result.fail (Failure.error (Error.activateNotSupported opts.Target.targetType)), t) := by
  constructor
  · unfold Prepare
    rw [if_pos h]
  · unfold Activate
    rw [if_pos h]

theorem Prepare_Activate_unsupported_on_cloud_witness :
    Prepare sampleWorld (sampleOptions "hosted" ⟨"dev", "us-east-1"⟩ true (okResponse "")) [] =
      (Result.fail (Failure.error (Error.prepareNotSupported "hosted")), []) ∧
    Activate sampleWorld 42 (sampleOptions "hosted" ⟨"dev", "us-east-1"⟩ true (okResponse "")) [] =
      (Result.fail (Failure.error (Error.activateNotSupported "hosted")), []) :=
  Prepare_Activate_unsupported_on_cloud sampleWorld
    (sampleOptions "hosted" ⟨"dev", "us-east-1"⟩ true (okResponse "")) 42 [] (by decide)

/-- C9, as stated, fails: for a cloud target whose package has no certificate
and whose zone is empty, `Deploy` returns the missing-certificate error of
`checkDeploymentOpts`, which it calls before it looks at the zone, and not the
missing-zone error. -/
theorem Deploy_empty_zone_without_certificate :
    Deploy sampleWorld (sampleOptions "cloud" ⟨"", ""⟩ false (okResponse "")) [] =
      (Result.fail (Failure.error (Error.missingCertificate
        { System := "main", Application := DefaultApplication, Zone := ⟨"", ""⟩ } "cloud")), []) ∧
    ¬ (∀ (w : World) (opts : DeploymentOptions) (t : Trace), opts.IsCloud = true →
        (opts.Target.Deployment.Zone.Environment = "" ∨ opts.Target.Deployment.Zone.Region = "") →
        Deploy w opts t = (Result.fail (Failure.error
          (Error.missingZone opts.Target.Deployment opts.Target.targetType)), t)) := by
  refine ⟨by decide, ?_⟩
  intro h
  have := h sampleWorld (sampleOptions "cloud" ⟨"", ""⟩ false (okResponse "")) []
    (by decide) (Or.inl rfl)
  revert this
  decide

/-- C9, amended: when the target is cloud or hosted and the zone of its
deployment has an empty environment or an empty region, `Deploy` fails without
calling a collaborator: with the missing-certificate error when the target type
is cloud and the package has no certificate, with the missing-zone error in
every other case. -/
theorem Deploy_empty_zone (w : World) (opts : DeploymentOptions) (t : Trace)
    (hc : opts.IsCloud = true)
    (hz : opts.Target.Deployment.Zone.Environment = "" ∨
      opts.Target.Deployment.Zone.Region = "") :
    (opts.Target.targetType = TargetCloud ∧ opts.ApplicationPackage.HasCertificate = false →
      Deploy w opts t = (Result.fail (Failure.error
        (Error.missingCertificate opts.Target.Deployment opts.Target.targetType)), t)) ∧
    (¬ (opts.Target.targetType = TargetCloud ∧ opts.ApplicationPackage.HasCertificate = false) →
      Deploy w opts t = (Result.fail (Failure.error
        (Error.missingZone opts.Target.Deployment opts.Target.targetType)), t)) := by
  constructor
  · rintro ⟨h1, h2⟩
    simp [Deploy, deployPath, hc, checkDeploymentOpts, h1, h2]
  · intro h
    have hcheck : checkDeploymentOpts opts = none := by
      unfold checkDeploymentOpts
      split
      · next hh =>
        simp only [Bool.and_eq_true, decide_eq_true_eq, Bool.not_eq_true'] at hh
        exact absurd hh h
      · rfl
    have hzb : (decide (opts.Target.Deployment.Zone.Environment = "") ||
        decide (opts.Target.Deployment.Zone.Region = "")) = true := by
      rcases hz with hz | hz <;> simp [hz]
    simp only [Deploy, deployPath, hc, hcheck, hzb, if_true]

theorem Deploy_empty_zone_witness :
    Deploy sampleWorld (sampleOptions "hosted" ⟨"dev", ""⟩ false (okResponse "")) [] =
      (Result.fail (Failure.error (Error.missingZone
        { System := "main", Application := DefaultApplication, Zone := ⟨"dev", ""⟩ }
        "hosted")), []) :=
  (Deploy_empty_zone sampleWorld (sampleOptions "hosted" ⟨"dev", ""⟩ false (okResponse "")) []
    (by decide) (Or.inr rfl)).2 (by decide)

/-- For a hosted target `Submit` passes its checks and goes on to resolve the
service endpoint. -/
theorem Submit_hosted_proceeds (w : World) (opts : DeploymentOptions) (t : Trace)
    (h1 : opts.Target.targetType = TargetHosted) :
    t ++ [Call.Service DeployService 0 0 ""] <+: (Submit w opts t).2 := by
  have hc : opts.IsCloud = true := by simp [DeploymentOptions.IsCloud, h1]
  have hcheck : checkDeploymentOpts opts = none := by
    simp [checkDeploymentOpts, h1, TargetHosted, TargetCloud]
  unfold Submit
  simp only [hc, hcheck, Bool.not_true, Bool.false_eq_true, if_false]
  unfold DeploymentOptions.url
  cases hs : opts.Target.Service t DeployService 0 0 "" with
  | fail f => simp
  | ok service =>
    simp only []
    cases hu : w.urlParse (service.BaseURL ++ ("/application/v4/tenant/"
        ++ opts.Target.Deployment.Application.Tenant
        ++ "/application/" ++ opts.Target.Deployment.Application.Application ++ "/submit")) with
    | fail f => simp
    | ok u =>
      simp only []
      repeat' split
      all_goals simp [List.append_assoc, List.prefix_append_right_inj]

/-- C10: when the target type is exactly cloud and the package has no
certificate, `Submit` fails with the missing-certificate error and calls no
collaborator; a hosted target without a certificate is not rejected by the
check: `checkDeploymentOpts` returns no error and `Submit` goes on to resolve
the service endpoint. -/
theorem Submit_missing_certificate (w : World) (opts : DeploymentOptions) (t : Trace) :
    (opts.Target.targetType = TargetCloud → opts.ApplicationPackage.HasCertificate = false →
      Submit w opts t = (Result.fail (Failure.error
        (Error.missingCertificate opts.Target.Deployment opts.Target.targetType)), t)) ∧
    (opts.Target.targetType = TargetHosted → opts.ApplicationPackage.HasCertificate = false →
      checkDeploymentOpts opts = none ∧
      t ++ [Call.Service DeployService 0 0 ""] <+: (Submit w opts t).2) := by
  constructor
  · intro h1 h2
    simp [Submit, DeploymentOptions.IsCloud, checkDeploymentOpts, h1, h2]
  · intro h1 _
    exact ⟨by simp [checkDeploymentOpts, h1, TargetHosted, TargetCloud],
      Submit_hosted_proceeds w opts t h1⟩

theorem Submit_missing_certificate_witness :
    Submit sampleWorld (sampleOptions "cloud" ⟨"dev", "us-east-1"⟩ false (okResponse "")) [] =
      (Result.fail (Failure.error (Error.missingCertificate
        { System := "main", Application := DefaultApplication, Zone := ⟨"dev", "us-east-1"⟩ }
        "cloud")), []) ∧
    (checkDeploymentOpts (sampleOptions "hosted" ⟨"dev", "us-east-1"⟩ false (okResponse "")) =
      none ∧
     [] ++ [Call.Service DeployService 0 0 ""] <+:
      (Submit sampleWorld
        (sampleOptions "hosted" ⟨"dev", "us-east-1"⟩ false (okResponse "")) []).2) :=
  ⟨(Submit_missing_certificate sampleWorld
      (sampleOptions "cloud" ⟨"dev", "us-east-1"⟩ false (okResponse "")) []).1 rfl rfl,
   (Submit_missing_certificate sampleWorld
      (sampleOptions "hosted" ⟨"dev", "us-east-1"⟩ false (okResponse "")) []).2 rfl rfl⟩

/-! ## Response classification and error text (claims C2, C3, C4) -/

/-- Go's truncating `StatusCode/100 == 4` holds exactly on the band 400..499. -/
theorem tdiv_hundred_eq_four (s : Int) : Int.tdiv s 100 = 4 ↔ 400 ≤ s ∧ s < 500 := by
  rcases Int.lt_or_le s 0 with h | h
  · have h1 : (-s).tdiv 100 = (-s) / 100 := Int.tdiv_eq_ediv (by omega) (by omega)
    have h2 : (-s).tdiv 100 = -(s.tdiv 100) := Int.neg_tdiv s 100
    constructor
    · intro h4
      omega
    · intro h4
      omega
  · rw [Int.tdiv_eq_ediv h (by omega)]
    omega

/-- Replacing ": " by a colon and a line feed turns each space that directly
follows a colon into a line feed and keeps every other character. -/
theorem replaceChars_colon (n : Nat) : ∀ (cs : List Char) (prev : Option Char),
    cs.length ≤ n → ¬ (prev = some ':' ∧ cs.head? = some ' ') →
    replaceChars [':', ' '] [':', '\n'] 0 cs = breakAfterColon prev cs := by
  induction n with
  | zero =>
    intro cs prev hlen _
    cases cs with
    | nil => rfl
    | cons c cs => simp at hlen
  | succ n ih =>
    intro cs prev hlen hprev
    cases cs with
    | nil => rfl
    | cons c cs =>
      have hc : ¬ (prev = some ':' ∧ c = ' ') := by simpa using hprev
      by_cases hm : c = ':' ∧ cs.head? = some ' '
      · obtain ⟨rfl, hh⟩ := hm
        cases cs with
        | nil => simp at hh
        | cons d ds =>
          simp only [List.head?_cons, Option.some.injEq] at hh
          subst hh
          have hds : ds.length ≤ n := by simp at hlen; omega
          have := ih ds (some ' ') hds (by simp)
          simp [replaceChars, breakAfterColon, this]
      · have hnp : ([':', ' '] : List Char).isPrefixOf (c :: cs) = false := by
          cases cs with
          | nil => simp [List.isPrefixOf]
          | cons d ds =>
            simp only [List.head?_cons, Option.some.injEq] at hm
            simp [List.isPrefixOf]
            exact fun h1 h2 => hm ⟨h1.symm, h2.symm⟩
        have hcs : cs.length ≤ n := by simp at hlen; omega
        have := ih cs (some c) hcs (by simpa using hm)
        simp [replaceChars, breakAfterColon, hnp, this, hc]

/-- What `checkResponse` does on each band of status codes: nil on 200, the
service error outside 200 and the band 400..499, and on the band 400..499 the
invalid-package error with the extracted text when `extractError` returns, the
panic of `extractError` when it panics. -/
theorem checkResponse_bands (w : World) (req : Request) (response : Response)
    (description : String) :
    (response.StatusCode = 200 → checkResponse w req response description = Result.ok ()) ∧
    (response.StatusCode ≠ 200 → ¬ (400 ≤ response.StatusCode ∧ response.StatusCode < 500) →
      checkResponse w req response description =
        Result.fail (Failure.error (Error.service description req.URL.Host response.Status
          (ReaderToJSON w response.Body)))) ∧
    (400 ≤ response.StatusCode ∧ response.StatusCode < 500 →
      (∀ text, extractError w response.Body = Result.ok text →
        checkResponse w req response description =
          Result.fail (Failure.error (Error.invalidApplicationPackage response.Status text))) ∧
      (∀ f, extractError w response.Body = Result.fail f →
        checkResponse w req response description = Result.fail f)) := by
  refine ⟨?_, ?_, ?_⟩
  · intro h
    have h4 : ¬ Int.tdiv response.StatusCode 100 = 4 := by
      rw [tdiv_hundred_eq_four]; omega
    unfold checkResponse
    rw [if_neg h4, if_neg (by simpa using h)]
  · intro h hb
    have h4 : ¬ Int.tdiv response.StatusCode 100 = 4 := by
      rw [tdiv_hundred_eq_four]; exact hb
    simp [checkResponse, h4, h]
  · intro hb
    have h4 : Int.tdiv response.StatusCode 100 = 4 := (tdiv_hundred_eq_four _).mpr hb
    constructor
    · intro text ht
      simp [checkResponse, h4, ht]
    · intro f hf
      simp [checkResponse, h4, hf]

/-- C2: the code breaks the claim on a 400 response with the body
`{"error-code":"INVALID_APPLICATION_PACKAGE"}`: the status is in the band
400..499, yet `checkResponse` returns no invalid-package error, it panics in
`extractError`. -/
theorem checkResponse_panics_without_message (w : World) (req : Request)
    (description : String) :
    (400 ≤ (badRequest noMessageBody).StatusCode ∧ (badRequest noMessageBody).StatusCode < 500) ∧
    checkResponse w req (badRequest noMessageBody) description =
      Result.fail (Failure.panic "response[\"message\"].(string)") ∧
    ∀ e, checkResponse w req (badRequest noMessageBody) description ≠
      Result.fail (Failure.error e) := by
  have h : checkResponse w req (badRequest noMessageBody) description =
      Result.fail (Failure.panic "response[\"message\"].(string)") := rfl
  refine ⟨by decide, h, ?_⟩
  intro e he
  rw [h] at he
  cases he

/-- C3: the code breaks the claim on the body
`{"error-code":"INVALID_APPLICATION_PACKAGE"}`, which has no `message`, and on
the body `{"error-code":"INVALID_APPLICATION_PACKAGE","message":404}`, whose
`message` is not a string: `extractError` panics on both. -/
theorem extractError_panics_without_string_message (w : World) :
    extractError w noMessageBody =
      Result.fail (Failure.panic "response[\"message\"].(string)") ∧
    extractError w numericMessageBody =
      Result.fail (Failure.panic "response[\"message\"].(string)") := by
  exact ⟨rfl, rfl⟩

/-- C4: for a body that is a JSON object with `error-code` equal to
"INVALID_APPLICATION_PACKAGE" and a string `message` m, `extractError` returns m
with every ": " replaced by a colon and a line feed, which changes each space
directly after a colon into a line feed and nothing else; on a response with a
status in 400..499 this is the text of the invalid-package error. -/
theorem extractError_invalid_package_message (w : World) (body : String)
    (ms : List (String × JSON)) (m : String)
    (hp : parseDocument body = some (JSON.obj ms))
    (hc : mapIndex ms "error-code" = some (JSON.str "INVALID_APPLICATION_PACKAGE"))
    (hm : mapIndex ms "message" = some (JSON.str m)) :
    extractError w body = Result.ok (ReplaceAll m ": " ":\n") ∧
    (ReplaceAll m ": " ":\n").data = breakAfterColon none m.data ∧
    (∀ (req : Request) (response : Response) (description : String),
      response.Body = body → 400 ≤ response.StatusCode → response.StatusCode < 500 →
      checkResponse w req response description =
        Result.fail (Failure.error
          (Error.invalidApplicationPackage response.Status (ReplaceAll m ": " ":\n")))) := by
  have he : extractError w body = Result.ok (ReplaceAll m ": " ":\n") := by
    simp [extractError, hp, hc, hm]
  refine ⟨he, ?_, ?_⟩
  · exact replaceChars_colon m.data.length m.data none (Nat.le_refl _) (by simp)
  · intro req response description hb h1 h2
    subst hb
    exact ((checkResponse_bands w req response description).2.2 ⟨h1, h2⟩).1 _ he

theorem extractError_invalid_package_message_witness :
    extractError sampleWorld invalidPackageBody = Result.ok "a:\nb:\nc" ∧
    checkResponse sampleWorld sampleUpload (badRequest invalidPackageBody) "Deploy API" =
      Result.fail (Failure.error
        (Error.invalidApplicationPackage "400 Bad Request" "a:\nb:\nc")) :=
  have h := extractError_invalid_package_message sampleWorld invalidPackageBody
    [("error-code", JSON.str "INVALID_APPLICATION_PACKAGE"), ("message", JSON.str "a: b: c")]
    "a: b: c" rfl rfl rfl
  ⟨h.1, h.2.2 sampleUpload (badRequest invalidPackageBody) "Deploy API" rfl
    (by decide) (by decide)⟩

/-! ## Storing a JSON array in a slice of log lines -/

/-- Storing array elements from index `i` on into a slice of length `i` whose
backing array is zero beyond the length appends the stored elements in order
and keeps the backing array zero beyond the new length. -/
theorem storeElements_fresh (vs : List JSON) : ∀ (pre : List LogLinePrepareResponse) (k : Nat),
    ∃ k2, storeElements
        { backing := pre ++ List.replicate k LogLinePrepareResponse.zero, len := pre.length }
        pre.length vs =
      { backing := pre ++ vs.map (storeLogLine LogLinePrepareResponse.zero) ++
          List.replicate k2 LogLinePrepareResponse.zero,
        len := pre.length + vs.length } := by
  induction vs with
  | nil => intro pre k; exact ⟨k, by simp [storeElements]⟩
  | cons v vs ih =>
    intro pre k
    have hget : ∀ rest : List LogLinePrepareResponse,
        (pre ++ LogLinePrepareResponse.zero :: rest).getD pre.length LogLinePrepareResponse.zero =
          LogLinePrepareResponse.zero := by
      intro rest
      rw [List.getD_append_right _ _ _ _ (Nat.le_refl _)]
      simp
    have hset : ∀ (rest : List LogLinePrepareResponse) (x : LogLinePrepareResponse),
        (pre ++ LogLinePrepareResponse.zero :: rest).set pre.length x = pre ++ x :: rest := by
      intro rest x
      simp [List.set_append]
    have hstep : ∃ k1, storeElement
        { backing := pre ++ List.replicate k LogLinePrepareResponse.zero, len := pre.length }
        pre.length v =
        { backing := (pre ++ [storeLogLine LogLinePrepareResponse.zero v]) ++
            List.replicate k1 LogLinePrepareResponse.zero,
          len := pre.length + 1 } := by
      cases k with
      | zero =>
        refine ⟨(if pre.length + pre.length / 2 < 4 then 4 else pre.length + pre.length / 2)
          - pre.length - 1, ?_⟩
        have hpos : 0 < (if pre.length + pre.length / 2 < 4 then 4
            else pre.length + pre.length / 2) - pre.length := by
          split <;> omega
        obtain ⟨j, hj⟩ := Nat.exists_eq_succ_of_ne_zero (Nat.pos_iff_ne_zero.mp hpos)
        simp only [storeElement, List.replicate_zero, List.append_nil, ge_iff_le, Nat.le_refl,
          if_true, List.take_length, hj, List.replicate_succ, hget, hset]
        simp
      | succ k =>
        refine ⟨k, ?_⟩
        have hk : ¬ (pre.length + (k + 1) ≤ pre.length) := by omega
        simp only [storeElement, List.length_append, List.length_replicate, ge_iff_le,
          Nat.le_refl, if_true, hk, if_false, List.replicate_succ, hget, hset]
        simp
        rw [List.getElem_append_right (Nat.le_refl _)]
        simp
    obtain ⟨k1, h1⟩ := hstep
    obtain ⟨k2, h2⟩ := ih (pre ++ [storeLogLine LogLinePrepareResponse.zero v]) k1
    simp only [List.length_append, List.length_singleton] at h2
    refine ⟨k2, ?_⟩
    simp only [storeElements]
    rw [h1, h2]
    simp [Nat.add_assoc, Nat.add_comm 1]

/-- Stored in a nil slice, a JSON array gives its elements, each stored in a
zero log line, in order. -/
theorem storeLogSlice_nil_elems (vs : List JSON) :
    (storeLogSlice LogSlice.nil (JSON.arr vs)).elems =
      vs.map (storeLogLine LogLinePrepareResponse.zero) := by
  obtain ⟨k2, h⟩ := storeElements_fresh vs [] 0
  simp only [List.nil_append, List.replicate_zero, List.length_nil, Nat.zero_add] at h
  cases vs with
  | nil => simp [storeLogSlice, LogSlice.nil, LogSlice.elems]
  | cons v vs =>
    simp only [storeLogSlice, LogSlice.nil]
    rw [h]
    simp [LogSlice.elems]

/-- A member that is not stored in a field leaves that field as it is. -/
theorem storeResponseMember_other (r : JsonResponse) (kv : String × JSON) :
    (findField jsonResponseFields kv.1 ≠ some "session-id" →
      (storeResponseMember r kv).SessionID = r.SessionID) ∧
    (findField jsonResponseFields kv.1 ≠ some "run" →
      (storeResponseMember r kv).RunID = r.RunID) ∧
    (findField jsonResponseFields kv.1 ≠ some "log" →
      (storeResponseMember r kv).Log = r.Log) := by
  unfold storeResponseMember
  refine ⟨?_, ?_, ?_⟩ <;> intro h <;> split <;> first | rfl | (rename_i heq; exact absurd heq h)

/-- Members none of which is stored in a field leave that field as it is. -/
theorem storeResponseMembers_other (ms : List (String × JSON)) : ∀ r : JsonResponse,
    ((∀ kv ∈ ms, findField jsonResponseFields kv.1 ≠ some "session-id") →
      (ms.foldl storeResponseMember r).SessionID = r.SessionID) ∧
    ((∀ kv ∈ ms, findField jsonResponseFields kv.1 ≠ some "run") →
      (ms.foldl storeResponseMember r).RunID = r.RunID) ∧
    ((∀ kv ∈ ms, findField jsonResponseFields kv.1 ≠ some "log") →
      (ms.foldl storeResponseMember r).Log = r.Log) := by
  induction ms with
  | nil => intro r; simp
  | cons m ms ih =>
    intro r
    have hm := storeResponseMember_other r m
    have hr := ih (storeResponseMember r m)
    refine ⟨?_, ?_, ?_⟩
    · intro h
      rw [List.foldl_cons, hr.1 (fun kv hkv => h kv (List.mem_cons_of_mem _ hkv)),
        hm.1 (h m (List.mem_cons_self _ _))]
    · intro h
      rw [List.foldl_cons, hr.2.1 (fun kv hkv => h kv (List.mem_cons_of_mem _ hkv)),
        hm.2.1 (h m (List.mem_cons_self _ _))]
    · intro h
      rw [List.foldl_cons, hr.2.2 (fun kv hkv => h kv (List.mem_cons_of_mem _ hkv)),
        hm.2.2 (h m (List.mem_cons_self _ _))]

/-- What the decoded struct holds when the object has a single member for a
field: a single `run` member that is an integer literal gives that integer, a
single `session-id` member that is a string gives that string, a single `log`
member that is an array gives its elements in order; a field without a member
keeps its initial value (run 0, session id "0", no log lines). -/
theorem storeResponseMembers_single (pre post : List (String × JSON)) (k : String) :
    (∀ lit n, findField jsonResponseFields k = some "run" → ParseInt lit = some n →
      (∀ kv ∈ pre ++ post, findField jsonResponseFields kv.1 ≠ some "run") →
      ((pre ++ (k, JSON.num lit) :: post).foldl storeResponseMember initialJsonResponse).RunID = n) ∧
    (∀ s, findField jsonResponseFields k = some "session-id" →
      (∀ kv ∈ pre ++ post, findField jsonResponseFields kv.1 ≠ some "session-id") →
      ((pre ++ (k, JSON.str s) :: post).foldl storeResponseMember initialJsonResponse).SessionID = s) ∧
    (∀ vs, findField jsonResponseFields k = some "log" →
      (∀ kv ∈ pre ++ post, findField jsonResponseFields kv.1 ≠ some "log") →
      ((pre ++ (k, JSON.arr vs) :: post).foldl storeResponseMember initialJsonResponse).Log.elems =
        vs.map (storeLogLine LogLinePrepareResponse.zero)) ∧
    ((∀ kv ∈ pre ++ post, findField jsonResponseFields kv.1 ≠ some "run") →
      ((pre ++ post).foldl storeResponseMember initialJsonResponse).RunID = 0) ∧
    ((∀ kv ∈ pre ++ post, findField jsonResponseFields kv.1 ≠ some "session-id") →
      ((pre ++ post).foldl storeResponseMember initialJsonResponse).SessionID = "0") ∧
    ((∀ kv ∈ pre ++ post, findField jsonResponseFields kv.1 ≠ some "log") →
      ((pre ++ post).foldl storeResponseMember initialJsonResponse).Log.elems = []) := by
  refine ⟨?_, ?_, ?_, ?_, ?_, ?_⟩
  · intro lit n hk hp hno
    have hpre := (storeResponseMembers_other pre initialJsonResponse).2.1
      (fun kv hkv => hno kv (List.mem_append_left _ hkv))
    rw [List.foldl_append, List.foldl_cons,
      (storeResponseMembers_other post _).2.1 (fun kv hkv => hno kv (List.mem_append_right _ hkv))]
    simp [storeResponseMember, hk, storeInt64, hp]
  · intro s hk hno
    rw [List.foldl_append, List.foldl_cons,
      (storeResponseMembers_other post _).1 (fun kv hkv => hno kv (List.mem_append_right _ hkv))]
    simp [storeResponseMember, hk, storeString]
  · intro vs hk hno
    have hpre := (storeResponseMembers_other pre initialJsonResponse).2.2
      (fun kv hkv => hno kv (List.mem_append_left _ hkv))
    rw [List.foldl_append, List.foldl_cons,
      (storeResponseMembers_other post _).2.2 (fun kv hkv => hno kv (List.mem_append_right _ hkv))]
    simp only [storeResponseMember, hk, hpre]
    exact storeLogSlice_nil_elems vs
  · intro hno
    rw [(storeResponseMembers_other _ _).2.1 hno]
    rfl
  · intro hno
    rw [(storeResponseMembers_other _ _).1 hno]
    rfl
  · intro hno
    rw [(storeResponseMembers_other _ _).2.2 hno]
    rfl

/-! ## The decoded fields, member by member -/

theorem getLast?_cons_getD {α : Type} (a d : α) (l : List α) :
    ((a :: l).getLast?).getD d = (l.getLast?).getD a := by
  cases l with
  | nil => rfl
  | cons b l =>
    rw [List.getLast?_cons_cons, List.getLast?_eq_getLast (b :: l) (List.cons_ne_nil b l)]
    rfl

/-- A fold whose step stores in a field what `read` makes of a member that
names the field, and leaves the field alone otherwise, ends with what the last
such member stored. -/
theorem foldl_lastMemberValue {S α : Type} (step : S → String × JSON → S) (proj : S → α)
    (fields : List String) (field : String) (read : JSON → Option α)
    (hstep : ∀ s kv, proj (step s kv) =
      (if findField fields kv.1 = some field then read kv.2 else none).getD (proj s))
    (ms : List (String × JSON)) : ∀ s : S,
    proj (ms.foldl step s) = lastMemberValue fields field read (proj s) ms := by
  induction ms with
  | nil => intro s; rfl
  | cons m ms ih =>
    intro s
    rw [List.foldl_cons, ih (step s m), hstep s m]
    unfold lastMemberValue
    rw [List.filterMap_cons]
    cases hm : (if findField fields m.1 = some field then read m.2 else none) with
    | none => rfl
    | some a =>
      simp only [Option.getD_some]
      rw [getLast?_cons_getD]

theorem storeInt64_eq (old : Int) (v : JSON) : storeInt64 old v = (int64Of v).getD old := by
  cases v with
  | num lit => simp only [storeInt64, int64Of]; cases ParseInt lit <;> rfl
  | _ => rfl

theorem storeString_eq (old : String) (v : JSON) : storeString old v = (stringOf v).getD old := by
  cases v <;> rfl

theorem storeResponseMember_RunID (r : JsonResponse) (kv : String × JSON) :
    (storeResponseMember r kv).RunID =
      (if findField jsonResponseFields kv.1 = some "run" then int64Of kv.2 else none).getD
        r.RunID := by
  by_cases h : findField jsonResponseFields kv.1 = some "run"
  · simp [storeResponseMember, h, storeInt64_eq]
  · rw [(storeResponseMember_other r kv).2.1 h, if_neg h]
    rfl

theorem storeResponseMember_SessionID (r : JsonResponse) (kv : String × JSON) :
    (storeResponseMember r kv).SessionID =
      (if findField jsonResponseFields kv.1 = some "session-id" then stringOf kv.2
        else none).getD r.SessionID := by
  by_cases h : findField jsonResponseFields kv.1 = some "session-id"
  · simp [storeResponseMember, h, storeString_eq]
  · rw [(storeResponseMember_other r kv).1 h, if_neg h]
    rfl

/-- The struct the members of a response object are stored in holds the `run`
and the `session-id` of the object. -/
theorem storeResponseMembers_fields (ms : List (String × JSON)) :
    (ms.foldl storeResponseMember initialJsonResponse).RunID = runOf ms ∧
    (ms.foldl storeResponseMember initialJsonResponse).SessionID = sessionIdOf ms :=
  ⟨foldl_lastMemberValue storeResponseMember (fun r => r.RunID) jsonResponseFields "run"
      int64Of storeResponseMember_RunID ms initialJsonResponse,
   foldl_lastMemberValue storeResponseMember (fun r => r.SessionID) jsonResponseFields
      "session-id" stringOf storeResponseMember_SessionID ms initialJsonResponse⟩

theorem storeLogLineMember_fields (l : LogLinePrepareResponse) (kv : String × JSON) :
    (storeLogLineMember l kv).Time =
      (if findField ["Time", "Level", "Message"] kv.1 = some "Time" then int64Of kv.2
        else none).getD l.Time ∧
    (storeLogLineMember l kv).Level =
      (if findField ["Time", "Level", "Message"] kv.1 = some "Level" then stringOf kv.2
        else none).getD l.Level ∧
    (storeLogLineMember l kv).Message =
      (if findField ["Time", "Level", "Message"] kv.1 = some "Message" then stringOf kv.2
        else none).getD l.Message := by
  unfold storeLogLineMember
  split
  · rename_i h; simp [h, storeInt64_eq]
  · rename_i h; simp [h, storeString_eq]
  · rename_i h; simp [h, storeString_eq]
  · rename_i h2 h3 h4
    rw [if_neg h2, if_neg h3, if_neg h4]
    exact ⟨rfl, rfl, rfl⟩

/-- Stored in a zero log line, a JSON value gives the log line it stands for. -/
theorem storeLogLine_zero (v : JSON) :
    storeLogLine LogLinePrepareResponse.zero v = logLineOf v := by
  cases v with
  | obj ms =>
    have h1 := foldl_lastMemberValue storeLogLineMember (fun l => l.Time)
      ["Time", "Level", "Message"] "Time" int64Of (fun l kv => (storeLogLineMember_fields l kv).1)
      ms LogLinePrepareResponse.zero
    have h2 := foldl_lastMemberValue storeLogLineMember (fun l => l.Level)
      ["Time", "Level", "Message"] "Level" stringOf
      (fun l kv => (storeLogLineMember_fields l kv).2.1) ms LogLinePrepareResponse.zero
    have h3 := foldl_lastMemberValue storeLogLineMember (fun l => l.Message)
      ["Time", "Level", "Message"] "Message" stringOf
      (fun l kv => (storeLogLineMember_fields l kv).2.2) ms LogLinePrepareResponse.zero
    simp only [storeLogLine, logLineOf]
    generalize ms.foldl storeLogLineMember LogLinePrepareResponse.zero = x at h1 h2 h3
    cases x
    simp only at h1 h2 h3
    rw [h1, h2, h3]
    rfl
  | _ => rfl

/-! ## Upload and reconciliation of the response (claim C1) -/

/-- When the package, the service, the signing and the transport all succeed,
`uploadApplicationPackage` makes these four calls and returns what
`reconcileResponse` makes of the response. -/
theorem uploadApplicationPackage_sent (w : World) (url : URL) (opts : DeploymentOptions)
    (t : Trace) (zip : Reader) (service : Service) (signed : Request) (response : Response)
    (hzip : opts.ApplicationPackage.zipReader t false = Result.ok zip)
    (hservice : opts.Target.Service (t ++ [Call.zipReader false]) DeployService
      opts.Timeout 0 "" = Result.ok service)
    (hsign : opts.Target.SignRequest
      (t ++ [Call.zipReader false] ++ [Call.Service DeployService opts.Timeout 0 ""])
      (uploadRequest url zip) opts.Target.Deployment.Application.SerializedForm =
        Result.ok signed)
    (hdo : service.Do
      (t ++ [Call.zipReader false] ++ [Call.Service DeployService opts.Timeout 0 ""] ++
        [Call.SignRequest (uploadRequest url zip)
          opts.Target.Deployment.Application.SerializedForm])
      signed (Minute * 10) = Result.ok response) :
    uploadApplicationPackage w url opts t =
      (reconcileResponse w signed response service.Description,
       t ++ [Call.zipReader false] ++ [Call.Service DeployService opts.Timeout 0 ""] ++
        [Call.SignRequest (uploadRequest url zip)
          opts.Target.Deployment.Application.SerializedForm] ++
        [Call.Do signed (Minute * 10)]) := by
  unfold uploadApplicationPackage
  simp only [hzip, hservice, hsign, hdo]

/-- C1, as stated, fails: the 200 response with the body `{"session-id":"abc"}`
decodes as a JSON object, yet `uploadApplicationPackage` returns the error of
`strconv.ParseInt` and no id. -/
theorem uploadApplicationPackage_unparsable_session :
    decodeObject badSessionBody = some [("session-id", JSON.str "abc")] ∧
    (uploadApplicationPackage sampleWorld sampleURL
      (sampleOptions "local" ⟨"", ""⟩ true (okResponse badSessionBody)) []).1 =
        Result.fail (Failure.error (Error.parseInt "abc")) ∧
    ¬ (∀ response : Response, response.StatusCode = 200 →
        (decodeObject response.Body).isSome = true →
        ∃ r, (uploadApplicationPackage sampleWorld sampleURL
          (sampleOptions "local" ⟨"", ""⟩ true response) []).1 = Result.ok r) := by
  refine ⟨rfl, by decide, ?_⟩
  intro h
  obtain ⟨r, hr⟩ := h (okResponse badSessionBody) rfl rfl
  revert hr
  have : (uploadApplicationPackage sampleWorld sampleURL
      (sampleOptions "local" ⟨"", ""⟩ true (okResponse badSessionBody)) []).1 =
        Result.fail (Failure.error (Error.parseInt "abc")) := by decide
  rw [this]
  intro hr
  cases hr

/-- C1, amended: for a 200 upload response whose body decodes as a JSON object
with the members `ms` (the body starts with a well-formed object), where `run`
is the integer of the last member whose key matches `run` and whose value is an
int64 literal (0 when there is none) and `session-id` the string of the last
member whose key matches `session-id` and whose value is a string ("0" when
there is none): `uploadApplicationPackage` returns without error the `run` as
id when it is nonzero, and otherwise the base-10 integer parsed from the
`session-id` provided that parses.  Every result it returns has no log lines
when no member's key matches `log`, and when exactly one member's key matches
`log` and its value is an array, the log lines of the elements of that array in
order. -/
theorem uploadApplicationPackage_reconciles (w : World) (url : URL)
    (opts : DeploymentOptions) (t : Trace) (zip : Reader) (service : Service)
    (signed : Request) (response : Response) (ms : List (String × JSON))
    (hzip : opts.ApplicationPackage.zipReader t false = Result.ok zip)
    (hservice : opts.Target.Service (t ++ [Call.zipReader false]) DeployService
      opts.Timeout 0 "" = Result.ok service)
    (hsign : opts.Target.SignRequest
      (t ++ [Call.zipReader false] ++ [Call.Service DeployService opts.Timeout 0 ""])
      (uploadRequest url zip) opts.Target.Deployment.Application.SerializedForm =
        Result.ok signed)
    (hdo : service.Do
      (t ++ [Call.zipReader false] ++ [Call.Service DeployService opts.Timeout 0 ""] ++
        [Call.SignRequest (uploadRequest url zip)
          opts.Target.Deployment.Application.SerializedForm])
      signed (Minute * 10) = Result.ok response)
    (h200 : response.StatusCode = 200)
    (hobj : decodeObject response.Body = some ms) :
    (runOf ms ≠ 0 →
      ∃ lines, (uploadApplicationPackage w url opts t).1 =
        Result.ok { ID := runOf ms, LogLines := lines }) ∧
    (runOf ms = 0 → ∀ id, ParseInt (sessionIdOf ms) = some id →
      ∃ lines, (uploadApplicationPackage w url opts t).1 =
        Result.ok { ID := id, LogLines := lines }) ∧
    (∀ r, (uploadApplicationPackage w url opts t).1 = Result.ok r →
      ((∀ kv ∈ ms, findField jsonResponseFields kv.1 ≠ some "log") → r.LogLines = []) ∧
      (∀ pre k vs post, ms = pre ++ (k, JSON.arr vs) :: post →
        findField jsonResponseFields k = some "log" →
        (∀ kv ∈ pre ++ post, findField jsonResponseFields kv.1 ≠ some "log") →
        r.LogLines = vs.map logLineOf)) := by
  obtain ⟨hR, hS⟩ := storeResponseMembers_fields ms
  rw [uploadApplicationPackage_sent w url opts t zip service signed response hzip hservice
    hsign hdo, ← hR, ← hS]
  have hcheck := (checkResponse_bands w signed response service.Description).1 h200
  have hlines : ∀ r, reconcileResponse w signed response service.Description = Result.ok r →
      r.LogLines = (ms.foldl storeResponseMember initialJsonResponse).Log.elems := by
    intro r hr
    simp only [reconcileResponse, hcheck, Decode, hobj] at hr
    split at hr
    · split at hr
      · cases hr
      · cases hr; rfl
    · cases hr; rfl
  refine ⟨?_, ?_, ?_⟩
  · intro hrun
    exact ⟨(ms.foldl storeResponseMember initialJsonResponse).Log.elems,
      by simp [reconcileResponse, hcheck, Decode, hobj, hrun]⟩
  · intro hrun id hid
    exact ⟨(ms.foldl storeResponseMember initialJsonResponse).Log.elems,
      by simp [reconcileResponse, hcheck, Decode, hobj, hrun, hid]⟩
  · intro r hr
    rw [hlines r hr]
    constructor
    · intro hno
      have h := (storeResponseMembers_single ms [] "").2.2.2.2.2
      rw [List.append_nil] at h
      exact h hno
    · intro pre k vs post hms hk hno
      subst hms
      rw [(storeResponseMembers_single pre post k).2.2.1 vs hk hno]
      exact List.map_congr_left (fun v _ => storeLogLine_zero v)

theorem uploadApplicationPackage_reconciles_witness :
    (uploadApplicationPackage sampleWorld sampleURL
      (sampleOptions "local" ⟨"", ""⟩ true (okResponse sessionBody)) []).1 =
        Result.ok { ID := 42, LogLines := [{ Time := 1, Level := "info", Message := "ok" }] } ∧
    (uploadApplicationPackage sampleWorld sampleURL
      (sampleOptions "local" ⟨"", ""⟩ true (okResponse runBody)) []).1 =
        Result.ok { ID := 7, LogLines := [] } := by
  have hs := uploadApplicationPackage_reconciles sampleWorld sampleURL
    (sampleOptions "local" ⟨"", ""⟩ true (okResponse sessionBody)) []
    { data := "zip", err := none } (sampleService (okResponse sessionBody)) sampleUpload
    (okResponse sessionBody)
    [("session-id", JSON.str "42"),
     ("log", JSON.arr [JSON.obj [("time", JSON.num "1"), ("level", JSON.str "info"),
       ("message", JSON.str "ok")]])]
    rfl rfl rfl rfl rfl rfl
  have hr := uploadApplicationPackage_reconciles sampleWorld sampleURL
    (sampleOptions "local" ⟨"", ""⟩ true (okResponse runBody)) []
    { data := "zip", err := none } (sampleService (okResponse runBody)) sampleUpload
    (okResponse runBody) [("run", JSON.num "7")]
    rfl rfl rfl rfl rfl rfl
  constructor
  · obtain ⟨lines, h⟩ := hs.2.1 (by decide) 42 (by decide)
    have hl : lines = [{ Time := 1, Level := "info", Message := "ok" }] :=
      (hs.2.2 _ h).2 [("session-id", JSON.str "42")] "log"
        [JSON.obj [("time", JSON.num "1"), ("level", JSON.str "info"),
          ("message", JSON.str "ok")]] [] rfl (by decide) (by decide)
    rw [h, hl]
  · obtain ⟨lines, h⟩ := hr.1 (by decide)
    have hl : lines = [] := (hr.2.2 _ h).1 (by decide)
    rw [h, hl]
    rfl

/-! ## The JSON reader consumes its input

Every value read leaves less input than it was given, so the bounds that
`parseElements` and `parseMembers` count down from the length of the input are
never what ends the reading. -/

/-- Dropping whitespace does not lengthen the input. -/
theorem skipSpace_length_le (cs : List Char) : (skipSpace cs).length ≤ cs.length := by
  induction cs with
  | nil => simp [skipSpace]
  | cons c cs ih =>
    unfold skipSpace
    split
    · exact Nat.le_succ_of_le ih
    · exact Nat.le_refl _

/-- A scanned string literal ends before the end of the input it started in. -/
theorem scanString_length (cs : List Char) : ∀ (st : StringState) (acc s r : List Char),
    scanString st cs acc = some (s, r) → r.length < cs.length := by
  induction cs with
  | nil => intro st acc s r h; cases st <;> simp [scanString] at h
  | cons c cs ih =>
    intro st acc s r h
    cases st with
    | plain =>
      unfold scanString at h
      split at h
      · cases h; simp
      · split at h
        · exact Nat.lt_succ_of_lt (ih _ _ _ _ h)
        · split at h
          · cases h
          · exact Nat.lt_succ_of_lt (ih _ _ _ _ h)
    | escape =>
      unfold scanString at h
      split at h
      · exact Nat.lt_succ_of_lt (ih _ _ _ _ h)
      · split at h
        · exact Nat.lt_succ_of_lt (ih _ _ _ _ h)
        · cases h
    | hex left =>
      unfold scanString at h
      split at h
      · exact Nat.lt_succ_of_lt (ih _ _ _ _ h)
      · cases h

theorem readString_length (cs : List Char) (s : String) (r : List Char)
    (h : readString cs = some (s, r)) : r.length < cs.length := by
  unfold readString at h
  split at h
  · cases h
  · next raw r1 hs =>
    cases h
    exact scanString_length cs _ _ _ _ hs

theorem span_snd_length_le (p : Char → Bool) (cs : List Char) :
    (cs.span p).2.length ≤ cs.length := by
  rw [List.span_eq_take_drop]
  simp only
  exact (List.dropWhile_sublist p).length_le

theorem scanExp_length (acc cs lit r : List Char) (h : scanExp acc cs = some (lit, r)) :
    r.length ≤ cs.length := by
  unfold scanExp at h
  split at h
  · cases h; simp
  · next e r0 =>
    split at h
    · simp only at h
      split at h
      · cases h
      · cases h
        refine Nat.le_trans (span_snd_length_le _ _) ?_
        split <;> simp <;> omega
    · cases h; simp

theorem scanFrac_length (acc cs lit r : List Char) (h : scanFrac acc cs = some (lit, r)) :
    r.length ≤ cs.length := by
  unfold scanFrac at h
  split at h
  · simp only at h
    split at h
    · cases h
    · refine Nat.le_trans (scanExp_length _ _ _ _ h) ?_
      exact Nat.le_succ_of_le (span_snd_length_le _ _)
  · exact scanExp_length _ _ _ _ h

theorem scanNumber_length (cs lit r : List Char) (h : scanNumber cs = some (lit, r)) :
    r.length < cs.length := by
  unfold scanNumber at h
  simp only at h
  split at h
  · cases h
  · next c r0 hsr =>
    have hle : (c :: r0).length ≤ cs.length := by
      rw [← hsr]
      split <;> simp
    split at h
    · have := scanFrac_length _ _ _ _ h
      simp at hle; omega
    · split at h
      · have := scanFrac_length _ _ _ _ h
        have := span_snd_length_le Char.isDigit r0
        simp at hle; omega
      · cases h

theorem parseElements_length (pv : List Char → Option (JSON × List Char)) (hpv : Consuming pv)
    (n : Nat) : ∀ (cs : List Char) (acc vs : List JSON) (r : List Char),
    parseElements pv n cs acc = some (vs, r) → r.length < cs.length := by
  induction n with
  | zero => intro cs acc vs r h; simp [parseElements] at h
  | succ n ih =>
    intro cs acc vs r h
    unfold parseElements at h
    split at h
    · cases h
    · next v r0 hv =>
      have h0 := hpv cs v r0 hv
      have hs := skipSpace_length_le r0
      split at h
      · cases h
      · next sep r1 hsep =>
        rw [hsep] at hs
        simp at hs
        split at h
        · have := ih _ _ _ _ h
          omega
        · split at h
          · cases h
            omega
          · cases h

theorem parseMembers_length (pv : List Char → Option (JSON × List Char)) (hpv : Consuming pv)
    (n : Nat) : ∀ (cs : List Char) (acc ms : List (String × JSON)) (r : List Char),
    parseMembers pv n cs acc = some (ms, r) → r.length < cs.length := by
  induction n with
  | zero => intro cs acc vs r h; simp [parseMembers] at h
  | succ n ih =>
    intro cs acc vs r h
    unfold parseMembers at h
    split at h
    · cases h
    · next q r0 hq =>
      have hs0 := skipSpace_length_le cs
      rw [hq] at hs0
      simp at hs0
      split at h
      · split at h
        · cases h
        · next k r1 hk =>
          have h1 := readString_length r0 k r1 hk
          split at h
          · cases h
          · next colon r2 hcolon =>
            have hs1 := skipSpace_length_le r1
            rw [hcolon] at hs1
            simp at hs1
            split at h
            · split at h
              · cases h
              · next v r3 hv =>
                have h3 := hpv r2 v r3 hv
                split at h
                · cases h
                · next sep r4 hsep =>
                  have hs3 := skipSpace_length_le r3
                  rw [hsep] at hs3
                  simp at hs3
                  split at h
                  · have := ih _ _ _ _ h
                    omega
                  · split at h
                    · cases h
                      omega
                    · cases h
            · cases h
      · cases h

/-- The scalar branches of `parseValue` leave less input than they were
given. -/
theorem parseValue_scalar_length (c : Char) (r0 : List Char) (v : JSON) (r : List Char)
    (h : (if "true".data.isPrefixOf (c :: r0) then some (JSON.bool true, r0.drop 3)
      else if "false".data.isPrefixOf (c :: r0) then some (JSON.bool false, r0.drop 4)
      else if "null".data.isPrefixOf (c :: r0) then some (JSON.null, r0.drop 3)
      else
        match scanNumber (c :: r0) with
        | none => none
        | some (lit, r1) => some (JSON.num (String.mk lit), r1)) = some (v, r)) :
    r.length < (c :: r0).length := by
  split at h
  · cases h; simp; omega
  · split at h
    · cases h; simp; omega
    · split at h
      · cases h; simp; omega
      · split at h
        · cases h
        · next lit r1 hn =>
          cases h
          exact scanNumber_length _ _ _ hn

theorem parseValue_consuming (depth : Nat) : Consuming (fun x => parseValue depth x) := by
  induction depth with
  | zero =>
    intro cs v r h
    simp only at h
    unfold parseValue at h
    have hs := skipSpace_length_le cs
    split at h
    · cases h
    · next c r0 hc =>
      rw [hc] at hs
      split at h
      · split at h
        · cases h
        · next s r1 hr =>
          cases h
          have := readString_length _ _ _ hr
          simp at hs; omega
      · split at h
        · cases h
        · split at h
          · cases h
          · exact Nat.lt_of_lt_of_le (parseValue_scalar_length c r0 v r h) hs
  | succ d ih =>
    intro cs v r h
    simp only at h
    unfold parseValue at h
    have hs := skipSpace_length_le cs
    split at h
    · cases h
    · next c r0 hc =>
      rw [hc] at hs
      split at h
      · split at h
        · cases h
        · next s r1 hr =>
          cases h
          have := readString_length _ _ _ hr
          simp at hs; omega
      · split at h
        · simp only at h
          have hs0 := skipSpace_length_le r0
          split at h
          · cases h
          · next c1 r1 hc1 =>
            rw [hc1] at hs0
            simp at hs hs0
            split at h
            · cases h; omega
            · split at h
              · cases h
              · next vs r2 he =>
                cases h
                have := parseElements_length _ ih _ _ _ _ _ he
                simp at this; omega
        · split at h
          · simp only at h
            have hs0 := skipSpace_length_le r0
            split at h
            · cases h
            · next c1 r1 hc1 =>
              rw [hc1] at hs0
              simp at hs hs0
              split at h
              · cases h; omega
              · split at h
                · cases h
                · next ms r2 he =>
                  cases h
                  have := parseMembers_length _ ih _ _ _ _ _ he
                  simp at this; omega
          · exact Nat.lt_of_lt_of_le (parseValue_scalar_length c r0 v r h) hs

/-- The bound on the number of elements does not decide the outcome once it is
at least the length of the input: any two such bounds give the same result. -/
theorem parseElements_bound (pv : List Char → Option (JSON × List Char)) (hpv : Consuming pv)
    (n : Nat) : ∀ (m : Nat) (cs : List Char) (acc : List JSON),
    cs.length ≤ n → cs.length ≤ m → parseElements pv n cs acc = parseElements pv m cs acc := by
  induction n with
  | zero =>
    intro m cs acc hn _
    have hcs : cs = [] := List.length_eq_zero.mp (Nat.le_zero.mp hn)
    subst hcs
    have hnone : pv [] = none := by
      cases hp : pv [] with
      | none => rfl
      | some vr => exact absurd (hpv [] vr.1 vr.2 hp) (by simp)
    cases m with
    | zero => rfl
    | succ m => simp [parseElements, hnone]
  | succ n ih =>
    intro m cs acc hn hm
    cases m with
    | zero =>
      have hcs : cs = [] := List.length_eq_zero.mp (Nat.le_zero.mp hm)
      subst hcs
      have hnone : pv [] = none := by
        cases hp : pv [] with
        | none => rfl
        | some vr => exact absurd (hpv [] vr.1 vr.2 hp) (by simp)
      simp [parseElements, hnone]
    | succ m =>
      unfold parseElements
      cases hp : pv cs with
      | none => rfl
      | some vr =>
        obtain ⟨v, r⟩ := vr
        have h0 := hpv cs v r hp
        have hs := skipSpace_length_le r
        simp only
        cases hsk : skipSpace r with
        | nil => rfl
        | cons sep r1 =>
          rw [hsk] at hs
          simp at hs
          simp only
          split
          · exact ih m r1 _ (by omega) (by omega)
          · rfl

/-- The bound on the number of members does not decide the outcome once it is
at least the length of the input. -/
theorem parseMembers_bound (pv : List Char → Option (JSON × List Char)) (hpv : Consuming pv)
    (n : Nat) : ∀ (m : Nat) (cs : List Char) (acc : List (String × JSON)),
    cs.length ≤ n → cs.length ≤ m → parseMembers pv n cs acc = parseMembers pv m cs acc := by
  induction n with
  | zero =>
    intro m cs acc hn _
    have hcs : cs = [] := List.length_eq_zero.mp (Nat.le_zero.mp hn)
    subst hcs
    cases m with
    | zero => rfl
    | succ m => simp [parseMembers, skipSpace]
  | succ n ih =>
    intro m cs acc hn hm
    cases m with
    | zero =>
      have hcs : cs = [] := List.length_eq_zero.mp (Nat.le_zero.mp hm)
      subst hcs
      simp [parseMembers, skipSpace]
    | succ m =>
      unfold parseMembers
      have hs0 := skipSpace_length_le cs
      cases hq : skipSpace cs with
      | nil => rfl
      | cons q r0 =>
        rw [hq] at hs0
        simp at hs0
        simp only
        split
        · cases hk : readString r0 with
          | none => rfl
          | some kr =>
            obtain ⟨k, r1⟩ := kr
            have h1 := readString_length r0 k r1 hk
            have hs1 := skipSpace_length_le r1
            simp only
            cases hcolon : skipSpace r1 with
            | nil => rfl
            | cons colon r2 =>
              rw [hcolon] at hs1
              simp at hs1
              simp only
              split
              · cases hv : pv r2 with
                | none => rfl
                | some vr =>
                  obtain ⟨v, r3⟩ := vr
                  have h3 := hpv r2 v r3 hv
                  have hs3 := skipSpace_length_le r3
                  simp only
                  cases hsep : skipSpace r3 with
                  | nil => rfl
                  | cons sep r4 =>
                    rw [hsep] at hs3
                    simp at hs3
                    simp only
                    split
                    · exact ih m r4 _ (by omega) (by omega)
                    · rfl
              · rfl
        · rfl

/-- In `parseValue` the bound on the elements of an array is never what makes
the reading fail: every bound from the length of the input on gives the same
result. -/
theorem parseValue_element_bound (d n : Nat) (cs : List Char) (acc : List JSON)
    (h : cs.length ≤ n) :
    parseElements (fun x => parseValue d x) n cs acc =
      parseElements (fun x => parseValue d x) cs.length cs acc :=
  parseElements_bound _ (parseValue_consuming d) n cs.length cs acc h (Nat.le_refl _)

/-- In `parseValue` the bound on the members of an object is never what makes
the reading fail. -/
theorem parseValue_member_bound (d n : Nat) (cs : List Char) (acc : List (String × JSON))
    (h : cs.length ≤ n) :
    parseMembers (fun x => parseValue d x) n cs acc =
      parseMembers (fun x => parseValue d x) cs.length cs acc :=
  parseMembers_bound _ (parseValue_consuming d) n cs.length cs acc h (Nat.le_refl _)

/-! ## Submit on a self-hosted target, verbatim error text, rendering and parsing
(claims C11, C15, C19) -/

/-- C11: when the target type is neither cloud nor hosted, `Submit` fails with
the unsupported-operation error; it calls no collaborator (the trace is left as
it was), so it resolves no endpoint, reads no package and builds no request
body. -/
theorem Submit_unsupported_on_self_hosted (w : World) (opts : DeploymentOptions) (t : Trace)
    (hc : opts.Target.targetType ≠ TargetCloud) (hh : opts.Target.targetType ≠ TargetHosted) :
    Submit w opts t =
      (Result.fail (Failure.error
        (Error.submitUnsupported opts.Target.Deployment opts.Target.targetType)), t) := by
  have : opts.IsCloud = false := by simp [DeploymentOptions.IsCloud, hc, hh]
  simp [Submit, this]

theorem Submit_unsupported_on_self_hosted_witness :
    Submit sampleWorld (sampleOptions "local" ⟨"", ""⟩ true (okResponse "")) [] =
      (Result.fail (Failure.error (Error.submitUnsupported
        { System := "main", Application := DefaultApplication, Zone := ⟨"", ""⟩ } "local")), []) :=
  Submit_unsupported_on_self_hosted sampleWorld
    (sampleOptions "local" ⟨"", ""⟩ true (okResponse "")) [] (by decide) (by decide)

/-- C15: for a body that is not valid JSON, `extractError` returns the body as
it is. -/
theorem extractError_verbatim (w : World) (body : String) (h : parseDocument body = none) :
    extractError w body = Result.ok body := by
  simp [extractError, Indent, h, mapIndex]

theorem extractError_verbatim_witness :
    extractError sampleWorld "<html>502 Bad Gateway: \x7bnot json\x7d</html>" =
      Result.ok "<html>502 Bad Gateway: \x7bnot json\x7d</html>" :=
  extractError_verbatim sampleWorld "<html>502 Bad Gateway: \x7bnot json\x7d</html>" rfl

/-- A list without the separator is a single piece. -/
theorem splitChars_no_sep_eq (sep : Char) (p : List Char) (h : sep ∉ p) :
    splitChars sep p = [p] := by
  induction p with
  | nil => rfl
  | cons c cs ih =>
    have hc : c ≠ sep := fun e => h (e ▸ List.mem_cons_self _ _)
    have hcs : sep ∉ cs := fun e => h (List.mem_cons_of_mem _ e)
    simp [splitChars, hc, ih hcs]

/-- A piece without the separator, the separator and more text split into that
piece and the pieces of the text. -/
theorem splitChars_append_sep (sep : Char) (p rest : List Char) (h : sep ∉ p) :
    splitChars sep (p ++ sep :: rest) = p :: splitChars sep rest := by
  induction p with
  | nil => simp [splitChars]
  | cons c cs ih =>
    have hc : c ≠ sep := fun e => h (e ▸ List.mem_cons_self _ _)
    have hcs : sep ∉ cs := fun e => h (List.mem_cons_of_mem _ e)
    simp [splitChars, hc, ih hcs]

/-- C19: for an application whose tenant, application and instance contain no
"." character, parsing its `String()` succeeds and returns exactly that
application; this holds for `DefaultApplication`. -/
theorem ApplicationFromString_of_String (a : ApplicationID)
    (ht : '.' ∉ a.Tenant.data) (ha : '.' ∉ a.Application.data) (hi : '.' ∉ a.Instance.data) :
    ApplicationFromString a.String = Result.ok a ∧
    ApplicationFromString DefaultApplication.String = Result.ok DefaultApplication := by
  refine ⟨?_, by decide⟩
  have hs : Split a.String '.' = [a.Tenant, a.Application, a.Instance] := by
    unfold Split ApplicationID.String
    have hd : (a.Tenant ++ "." ++ a.Application ++ "." ++ a.Instance).data =
        a.Tenant.data ++ '.' :: (a.Application.data ++ '.' :: a.Instance.data) := by
      simp [String.data_append]
    rw [hd, splitChars_append_sep '.' _ _ ht, splitChars_append_sep '.' _ _ ha,
      splitChars_no_sep_eq '.' _ hi]
    rfl
  unfold ApplicationFromString
  rw [hs]

theorem ApplicationFromString_of_String_witness :
    ApplicationFromString
        (ApplicationID.String { Tenant := "t1", Application := "a-1", Instance := "i_1" }) =
      Result.ok { Tenant := "t1", Application := "a-1", Instance := "i_1" } ∧
    ApplicationFromString DefaultApplication.String = Result.ok DefaultApplication :=
  ApplicationFromString_of_String { Tenant := "t1", Application := "a-1", Instance := "i_1" }
    (by decide) (by decide) (by decide)

/-! ## Unparsable session ids and undecodable bodies (claims C12, C13) -/

/-- C12, as stated, fails: the 200 response with the body
`{"run":7,"session-id":"abc"}` contains a `session-id` that is not an integer,
yet `uploadApplicationPackage` returns the result with id 7: a nonzero `run` is
taken without parsing the `session-id`. -/
theorem uploadApplicationPackage_run_hides_session :
    decodeObject runAndBadSessionBody =
        some [("run", JSON.num "7"), ("session-id", JSON.str "abc")] ∧
    ParseInt "abc" = none ∧
    (uploadApplicationPackage sampleWorld sampleURL
      (sampleOptions "local" ⟨"", ""⟩ true (okResponse runAndBadSessionBody)) []).1 =
        Result.ok { ID := 7, LogLines := [] } ∧
    ¬ (∀ response : Response, response.StatusCode = 200 →
        (∃ ms s, decodeObject response.Body = some ms ∧
          mapIndex ms "session-id" = some (JSON.str s) ∧ ParseInt s = none) →
        ∃ f, (uploadApplicationPackage sampleWorld sampleURL
          (sampleOptions "local" ⟨"", ""⟩ true response) []).1 = Result.fail f) := by
  have hup : (uploadApplicationPackage sampleWorld sampleURL
      (sampleOptions "local" ⟨"", ""⟩ true (okResponse runAndBadSessionBody)) []).1 =
        Result.ok { ID := 7, LogLines := [] } := by decide
  refine ⟨rfl, by decide, hup, ?_⟩
  intro h
  obtain ⟨f, hf⟩ := h (okResponse runAndBadSessionBody) rfl
    ⟨[("run", JSON.num "7"), ("session-id", JSON.str "abc")], "abc", rfl, rfl, by decide⟩
  rw [hup] at hf
  cases hf

/-- C12, amended: for a 200 upload response whose body decodes as a JSON object
with the members `ms`, where `run` is the integer of the last member whose key
matches `run` and whose value is an int64 literal (0 when there is none) and
`session-id` the string of the last member whose key matches `session-id` and
whose value is a string ("0" when there is none): when `run` is 0 and the
`session-id` is not parseable as a base-10 64-bit integer,
`uploadApplicationPackage` fails with the error of `strconv.ParseInt` for that
`session-id` instead of returning a result; when `run` is nonzero it returns a
result with the `run` as id whatever the `session-id`. -/
theorem uploadApplicationPackage_unparsable_session_fails (w : World) (url : URL)
    (opts : DeploymentOptions) (t : Trace) (zip : Reader) (service : Service)
    (signed : Request) (response : Response) (ms : List (String × JSON))
    (hzip : opts.ApplicationPackage.zipReader t false = Result.ok zip)
    (hservice : opts.Target.Service (t ++ [Call.zipReader false]) DeployService
      opts.Timeout 0 "" = Result.ok service)
    (hsign : opts.Target.SignRequest
      (t ++ [Call.zipReader false] ++ [Call.Service DeployService opts.Timeout 0 ""])
      (uploadRequest url zip) opts.Target.Deployment.Application.SerializedForm =
        Result.ok signed)
    (hdo : service.Do
      (t ++ [Call.zipReader false] ++ [Call.Service DeployService opts.Timeout 0 ""] ++
        [Call.SignRequest (uploadRequest url zip)
          opts.Target.Deployment.Application.SerializedForm])
      signed (Minute * 10) = Result.ok response)
    (h200 : response.StatusCode = 200)
    (hobj : decodeObject response.Body = some ms) :
    (runOf ms = 0 → ParseInt (sessionIdOf ms) = none →
      (uploadApplicationPackage w url opts t).1 =
        Result.fail (Failure.error (Error.parseInt (sessionIdOf ms)))) ∧
    (runOf ms ≠ 0 →
      ∃ lines, (uploadApplicationPackage w url opts t).1 =
        Result.ok { ID := runOf ms, LogLines := lines }) := by
  obtain ⟨hR, hS⟩ := storeResponseMembers_fields ms
  rw [uploadApplicationPackage_sent w url opts t zip service signed response hzip hservice
    hsign hdo, ← hR, ← hS]
  have hcheck := (checkResponse_bands w signed response service.Description).1 h200
  constructor
  · intro hrun hparse
    simp [reconcileResponse, hcheck, Decode, hobj, hrun, hparse]
  · intro hrun
    exact ⟨(ms.foldl storeResponseMember initialJsonResponse).Log.elems,
      by simp [reconcileResponse, hcheck, Decode, hobj, hrun]⟩

theorem uploadApplicationPackage_unparsable_session_fails_witness :
    (uploadApplicationPackage sampleWorld sampleURL
      (sampleOptions "local" ⟨"", ""⟩ true (okResponse badSessionBody)) []).1 =
        Result.fail (Failure.error (Error.parseInt "abc")) ∧
    (uploadApplicationPackage sampleWorld sampleURL
      (sampleOptions "local" ⟨"", ""⟩ true (okResponse emptySessionBody)) []).1 =
        Result.fail (Failure.error (Error.parseInt "")) :=
  ⟨(uploadApplicationPackage_unparsable_session_fails sampleWorld sampleURL
      (sampleOptions "local" ⟨"", ""⟩ true (okResponse badSessionBody)) []
      { data := "zip", err := none } (sampleService (okResponse badSessionBody)) sampleUpload
      (okResponse badSessionBody) [("session-id", JSON.str "abc")]
      rfl rfl rfl rfl rfl rfl).1 (by decide) (by decide),
   (uploadApplicationPackage_unparsable_session_fails sampleWorld sampleURL
      (sampleOptions "local" ⟨"", ""⟩ true (okResponse emptySessionBody)) []
      { data := "zip", err := none } (sampleService (okResponse emptySessionBody)) sampleUpload
      (okResponse emptySessionBody) [("session-id", JSON.str "")]
      rfl rfl rfl rfl rfl rfl).1 (by decide) (by decide)⟩

/-- C13, as stated, fails: on the 200 response with the body
`{"run":7,"session-id":5}` the decoding fails (a number does not go into the
string `session-id`), yet the member `run` is stored before the error is
returned, and the result has id 7, not 0.  Nor does every non-JSON body give
id 0: the body `{"run":7}x` is not JSON, the decoder stops at the closing brace
without an error, and the result has id 7. -/
theorem uploadApplicationPackage_partial_decode :
    DecodeFails numericSessionBody = true ∧
    (uploadApplicationPackage sampleWorld sampleURL
      (sampleOptions "local" ⟨"", ""⟩ true (okResponse numericSessionBody)) []).1 =
        Result.ok { ID := 7, LogLines := [] } ∧
    ¬ (∀ response : Response, response.StatusCode = 200 →
        DecodeFails response.Body = true →
        (uploadApplicationPackage sampleWorld sampleURL
          (sampleOptions "local" ⟨"", ""⟩ true response) []).1 =
            Result.ok { ID := 0, LogLines := [] }) ∧
    parseDocument runThenTextBody = none ∧
    DecodeFails runThenTextBody = false ∧
    (uploadApplicationPackage sampleWorld sampleURL
      (sampleOptions "local" ⟨"", ""⟩ true (okResponse runThenTextBody)) []).1 =
        Result.ok { ID := 7, LogLines := [] } ∧
    ¬ (∀ response : Response, response.StatusCode = 200 →
        parseDocument response.Body = none →
        (uploadApplicationPackage sampleWorld sampleURL
          (sampleOptions "local" ⟨"", ""⟩ true response) []).1 =
            Result.ok { ID := 0, LogLines := [] }) := by
  have hup : (uploadApplicationPackage sampleWorld sampleURL
      (sampleOptions "local" ⟨"", ""⟩ true (okResponse numericSessionBody)) []).1 =
        Result.ok { ID := 7, LogLines := [] } := by decide
  have hup2 : (uploadApplicationPackage sampleWorld sampleURL
      (sampleOptions "local" ⟨"", ""⟩ true (okResponse runThenTextBody)) []).1 =
        Result.ok { ID := 7, LogLines := [] } := by decide
  refine ⟨by decide, hup, ?_, rfl, by decide, hup2, ?_⟩
  · intro h
    have h0 := h (okResponse numericSessionBody) rfl (by decide)
    rw [hup] at h0
    revert h0
    decide
  · intro h
    have h0 := h (okResponse runThenTextBody) rfl rfl
    rw [hup2] at h0
    revert h0
    decide

/-- C13, amended: for a 200 upload response whose body does not start with a
well-formed JSON object (the body is empty, its first JSON value is malformed,
or its first value is not an object), `uploadApplicationPackage` returns no
error and the result with id 0 and no log lines: the decode failure is
ignored. -/
theorem uploadApplicationPackage_undecodable_body (w : World) (url : URL)
    (opts : DeploymentOptions) (t : Trace) (zip : Reader) (service : Service)
    (signed : Request) (response : Response)
    (hzip : opts.ApplicationPackage.zipReader t false = Result.ok zip)
    (hservice : opts.Target.Service (t ++ [Call.zipReader false]) DeployService
      opts.Timeout 0 "" = Result.ok service)
    (hsign : opts.Target.SignRequest
      (t ++ [Call.zipReader false] ++ [Call.Service DeployService opts.Timeout 0 ""])
      (uploadRequest url zip) opts.Target.Deployment.Application.SerializedForm =
        Result.ok signed)
    (hdo : service.Do
      (t ++ [Call.zipReader false] ++ [Call.Service DeployService opts.Timeout 0 ""] ++
        [Call.SignRequest (uploadRequest url zip)
          opts.Target.Deployment.Application.SerializedForm])
      signed (Minute * 10) = Result.ok response)
    (h200 : response.StatusCode = 200)
    (hbody : decodeObject response.Body = none) :
    (uploadApplicationPackage w url opts t).1 = Result.ok { ID := 0, LogLines := [] } := by
  rw [uploadApplicationPackage_sent w url opts t zip service signed response hzip hservice
    hsign hdo]
  have hcheck := (checkResponse_bands w signed response service.Description).1 h200
  have hdec : Decode response.Body initialJsonResponse = initialJsonResponse := by
    simp [Decode, hbody]
  have hparse : ParseInt initialJsonResponse.SessionID = some 0 := by decide
  simp only [reconcileResponse, hcheck, hdec]
  rw [if_pos (by rfl), hparse]
  rfl

theorem uploadApplicationPackage_undecodable_body_witness :
    (uploadApplicationPackage sampleWorld sampleURL
      (sampleOptions "local" ⟨"", ""⟩ true (okResponse "Session 42 prepared")) []).1 =
        Result.ok { ID := 0, LogLines := [] } :=
  uploadApplicationPackage_undecodable_body sampleWorld sampleURL
    (sampleOptions "local" ⟨"", ""⟩ true (okResponse "Session 42 prepared")) []
    { data := "zip", err := none } (sampleService (okResponse "Session 42 prepared"))
    sampleUpload (okResponse "Session 42 prepared") rfl rfl rfl rfl rfl rfl

/-! ## The path of Deploy (claim C14) -/

/-- Every request `uploadApplicationPackage` hands to `SignRequest` is for the
URL it was given. -/
theorem uploadApplicationPackage_url (w : World) (u : URL) (opts : DeploymentOptions)
    (t : Trace) (req : Request) (key : String)
    (h : Call.SignRequest req key ∈ (uploadApplicationPackage w u opts t).2) :
    Call.SignRequest req key ∈ t ∨ req.URL = u := by
  unfold uploadApplicationPackage at h
  cases hz : opts.ApplicationPackage.zipReader t false with
  | fail f =>
    rw [hz] at h
    simp at h
    exact Or.inl h
  | ok zip =>
    rw [hz] at h
    simp only at h
    cases hs : opts.Target.Service (t ++ [Call.zipReader false]) DeployService opts.Timeout 0 "" with
    | fail f =>
      rw [hs] at h
      simp at h
      exact Or.inl h
    | ok service =>
      rw [hs] at h
      simp only at h
      cases hg : opts.Target.SignRequest
          (t ++ [Call.zipReader false] ++ [Call.Service DeployService opts.Timeout 0 ""])
          (uploadRequest u zip) opts.Target.Deployment.Application.SerializedForm with
      | fail f =>
        rw [hg] at h
        simp at h
        rcases h with h | h
        · exact Or.inl h
        · exact Or.inr (by rw [h.1]; rfl)
      | ok signed =>
        rw [hg] at h
        simp only at h
        cases hd : service.Do
            (t ++ [Call.zipReader false] ++ [Call.Service DeployService opts.Timeout 0 ""] ++
              [Call.SignRequest (uploadRequest u zip)
                opts.Target.Deployment.Application.SerializedForm])
            signed (Minute * 10) with
        | fail f =>
          rw [hd] at h
          simp at h
          rcases h with h | h
          · exact Or.inl h
          · exact Or.inr (by rw [h.1]; rfl)
        | ok response =>
          rw [hd] at h
          simp at h
          rcases h with h | h
          · exact Or.inl h
          · exact Or.inr (by rw [h.1]; rfl)

/-- C14: the path `Deploy` resolves and uploads to is
"/application/v2/tenant/default/prepareandactivate" when the target is not
cloud or hosted, and "/application/v4/tenant/T/application/A/instance/I/deploy/E-R"
from the deployment of the target when it is cloud or hosted and passes the
checks; `Deploy` computes no other path.  When there is no path it calls no
collaborator; otherwise it resolves the service once, parses the base URL
followed by the path, and uploads to that URL: every request it hands to
`SignRequest` is for that URL. -/
theorem Deploy_path (w : World) (opts : DeploymentOptions) (t : Trace) :
    (opts.IsCloud = false →
      deployPath opts = Result.ok "/application/v2/tenant/default/prepareandactivate") ∧
    (opts.IsCloud = true → checkDeploymentOpts opts = none →
      opts.Target.Deployment.Zone.Environment ≠ "" → opts.Target.Deployment.Zone.Region ≠ "" →
      deployPath opts = Result.ok
        ("/application/v4/tenant/" ++ opts.Target.Deployment.Application.Tenant
          ++ "/application/" ++ opts.Target.Deployment.Application.Application
          ++ "/instance/" ++ opts.Target.Deployment.Application.Instance
          ++ "/deploy/" ++ opts.Target.Deployment.Zone.Environment
          ++ "-" ++ opts.Target.Deployment.Zone.Region)) ∧
    (∀ path, deployPath opts = Result.ok path →
      path = "/application/v2/tenant/default/prepareandactivate" ∨
      path = "/application/v4/tenant/" ++ opts.Target.Deployment.Application.Tenant
          ++ "/application/" ++ opts.Target.Deployment.Application.Application
          ++ "/instance/" ++ opts.Target.Deployment.Application.Instance
          ++ "/deploy/" ++ opts.Target.Deployment.Zone.Environment
          ++ "-" ++ opts.Target.Deployment.Zone.Region) ∧
    (∀ f, deployPath opts = Result.fail f → Deploy w opts t = (Result.fail f, t)) ∧
    (∀ path service, deployPath opts = Result.ok path →
      opts.Target.Service t DeployService 0 0 "" = Result.ok service →
      (∀ f, w.urlParse (service.BaseURL ++ path) = Result.fail f →
        Deploy w opts t = (Result.fail f, t ++ [Call.Service DeployService 0 0 ""])) ∧
      (∀ u, w.urlParse (service.BaseURL ++ path) = Result.ok u →
        Deploy w opts t =
          uploadApplicationPackage w u opts (t ++ [Call.Service DeployService 0 0 ""]) ∧
        ∀ req key, Call.SignRequest req key ∈ (Deploy w opts t).2 →
          Call.SignRequest req key ∈ t ∨ req.URL = u)) := by
  refine ⟨?_, ?_, ?_, ?_, ?_⟩
  · intro h
    simp [deployPath, h]
  · intro h hcheck he hr
    simp [deployPath, h, hcheck, he, hr]
  · intro path hp
    unfold deployPath at hp
    split at hp
    · split at hp
      · cases hp
      · split at hp
        · cases hp
        · cases hp
          exact Or.inr rfl
    · cases hp
      exact Or.inl rfl
  · intro f hf
    simp [Deploy, hf]
  · intro path service hp hs
    constructor
    · intro f hu
      simp [Deploy, hp, DeploymentOptions.url, hs, hu]
    · intro u hu
      have hd : Deploy w opts t =
          uploadApplicationPackage w u opts (t ++ [Call.Service DeployService 0 0 ""]) := by
        simp [Deploy, hp, DeploymentOptions.url, hs, hu]
      refine ⟨hd, ?_⟩
      intro req key hmem
      rw [hd] at hmem
      rcases uploadApplicationPackage_url w u opts _ req key hmem with h | h
      · simp at h
        exact Or.inl h
      · exact Or.inr h

theorem Deploy_path_witness :
    deployPath (sampleOptions "local" ⟨"", ""⟩ false (okResponse runBody)) =
      Result.ok "/application/v2/tenant/default/prepareandactivate" ∧
    deployPath (sampleOptions "cloud" ⟨"dev", "us-east-1"⟩ true (okResponse runBody)) =
      Result.ok ("/application/v4/tenant/default/application/application/instance/default"
        ++ "/deploy/dev-us-east-1") ∧
    Deploy sampleWorld (sampleOptions "cloud" ⟨"dev", "us-east-1"⟩ true (okResponse runBody)) [] =
      uploadApplicationPackage sampleWorld
        { Host := "127.0.0.1:19071",
          Text := "http://127.0.0.1:19071/application/v4/tenant/default/application/application"
            ++ "/instance/default/deploy/dev-us-east-1" }
        (sampleOptions "cloud" ⟨"dev", "us-east-1"⟩ true (okResponse runBody))
        [Call.Service DeployService 0 0 ""] :=
  ⟨(Deploy_path sampleWorld (sampleOptions "local" ⟨"", ""⟩ false (okResponse runBody)) []).1
      (by decide),
   (Deploy_path sampleWorld
      (sampleOptions "cloud" ⟨"dev", "us-east-1"⟩ true (okResponse runBody)) []).2.1
      (by decide) (by decide) (by decide) (by decide),
   (((Deploy_path sampleWorld
      (sampleOptions "cloud" ⟨"dev", "us-east-1"⟩ true (okResponse runBody)) []).2.2.2.2
      ("/application/v4/tenant/default/application/application/instance/default"
        ++ "/deploy/dev-us-east-1")
      (sampleService (okResponse runBody)) (by decide) rfl).2 _ rfl).1⟩

/-! ## The multipart body of Submit (claim C16) -/

/-- What `copyToPart` does: with a reader that reads to its end it appends one
part holding the content, a plain form field when the filename is empty and a
file part of that filename otherwise; with a reader that fails it returns the
error of the reader. -/
theorem copyToPart_appends (dst : List Part) (src : Reader) (fieldname filename : String) :
    (src.err = none →
      copyToPart dst src fieldname filename = Result.ok (dst ++
        [{ fieldname := fieldname,
           filename := if filename = "" then none else some filename,
           content := src.data }])) ∧
    (∀ e, src.err = some e →
      copyToPart dst src fieldname filename = Result.fail (Failure.error e)) := by
  constructor
  · intro h
    unfold copyToPart
    rw [h]
    by_cases hf : filename = "" <;> simp [hf]
  · intro e h
    unfold copyToPart
    rw [h]

/-- The parts `copyToPart` leaves when it succeeds. -/
theorem copyToPart_ok (dst parts : List Part) (src : Reader) (fieldname filename : String)
    (h : copyToPart dst src fieldname filename = Result.ok parts) :
    parts = dst ++ [{ fieldname := fieldname,
                      filename := if filename = "" then none else some filename,
                      content := src.data }] := by
  cases he : src.err with
  | none =>
    rw [(copyToPart_appends dst src fieldname filename).1 he] at h
    cases h
    rfl
  | some e =>
    rw [(copyToPart_appends dst src fieldname filename).2 e he] at h
    cases h

/-- Every request `Submit` hands to `SignRequest` has the three-part body. -/
theorem Submit_signed_body (w : World) (opts : DeploymentOptions) (t : Trace)
    (req : Request) (key : String)
    (h : Call.SignRequest req key ∈ (Submit w opts t).2) :
    Call.SignRequest req key ∈ t ∨
    ∃ zip testZip : String, req.Body = RequestBody.multipart w.boundary
      [{ fieldname := "submitOptions", filename := none, content := "{}" },
       { fieldname := "applicationZip", filename := some "application.zip", content := zip },
       { fieldname := "applicationTestZip", filename := some "application-test.zip",
         content := testZip }] := by
  unfold Submit at h
  split at h
  · exact Or.inl h
  · split at h
    · exact Or.inl h
    · simp only at h
      unfold DeploymentOptions.url at h
      split at h
      · next f t1 hu =>
        split at hu
        · cases hu
          simp at h
          exact Or.inl h
        · simp only [Prod.mk.injEq] at hu
          rw [← hu.2] at h
          simp at h
          exact Or.inl h
      · next u t1 hu =>
        have ht1 : t1 = t ++ [Call.Service DeployService 0 0 ""] := by
          split at hu <;> simp only [Prod.mk.injEq] at hu <;> exact hu.2.symm
        subst ht1
        split at h
        · simp at h
          exact Or.inl h
        · next parts1 hp1 =>
          have e1 := copyToPart_ok _ _ _ _ _ hp1
          split at h
          · simp at h
            exact Or.inl h
          · next z1 hz1 =>
            split at h
            · simp at h
              exact Or.inl h
            · next parts2 hp2 =>
              have e2 := copyToPart_ok _ _ _ _ _ hp2
              split at h
              · simp at h
                exact Or.inl h
              · next z2 hz2 =>
                split at h
                · simp at h
                  exact Or.inl h
                · next parts3 hp3 =>
                  have e3 := copyToPart_ok _ _ _ _ _ hp3
                  subst e1 e2 e3
                  have hbody : ∀ r k, Call.SignRequest req key = Call.SignRequest r k →
                      r.Body = RequestBody.multipart w.boundary
                        ([] ++ [{ fieldname := "submitOptions",
                                  filename := if "" = "" then none else some "",
                                  content := (NewReader "{}").data }] ++
                          [{ fieldname := "applicationZip",
                             filename := if "application.zip" = "" then none
                               else some "application.zip",
                             content := z1.data }] ++
                          [{ fieldname := "applicationTestZip",
                             filename := if "application-test.zip" = "" then none
                               else some "application-test.zip",
                             content := z2.data }]) →
                      ∃ zip testZip : String, req.Body = RequestBody.multipart w.boundary
                        [{ fieldname := "submitOptions", filename := none, content := "{}" },
                         { fieldname := "applicationZip", filename := some "application.zip",
                           content := zip },
                         { fieldname := "applicationTestZip",
                           filename := some "application-test.zip", content := testZip }] := by
                    intro r k e hb
                    cases e
                    exact ⟨z1.data, z2.data, by rw [hb]; rfl⟩
                  split at h
                  · simp at h
                    rcases h with h | h
                    · exact Or.inl h
                    · exact Or.inr (hbody _ _ (by rw [h.1, h.2]) rfl)
                  · split at h
                    · simp at h
                      rcases h with h | h
                      · exact Or.inl h
                      · exact Or.inr (hbody _ _ (by rw [h.1, h.2]) rfl)
                    · simp at h
                      rcases h with h | h
                      · exact Or.inl h
                      · exact Or.inr (hbody _ _ (by rw [h.1, h.2]) rfl)

/-- C16: when `Submit` gets to build its body (cloud or hosted target that
passes the check, endpoint resolved, both zip readers obtained and read to
their end), the request it hands to `SignRequest` has a multipart body of
exactly three parts in this order: the form field `submitOptions` with content
"{}", the file part `applicationZip` with filename "application.zip" holding
the zip read with `zipReader(false)`, and the file part `applicationTestZip`
with filename "application-test.zip" holding the zip read with
`zipReader(true)`; every request `Submit` ever hands to `SignRequest` has a body
of this shape.  `copyToPart` makes a plain form field exactly when the filename
is empty and a file part otherwise. -/
theorem Submit_multipart_body (w : World) (opts : DeploymentOptions) (t t1 : Trace) (u : URL)
    (applicationZip testApplicationZip : Reader)
    (hc : opts.IsCloud = true) (hcheck : checkDeploymentOpts opts = none)
    (hurl : opts.url w ("/application/v4/tenant/" ++ opts.Target.Deployment.Application.Tenant
      ++ "/application/" ++ opts.Target.Deployment.Application.Application ++ "/submit") t =
        (Result.ok u, t1))
    (hz1 : opts.ApplicationPackage.zipReader t1 false = Result.ok applicationZip)
    (he1 : applicationZip.err = none)
    (hz2 : opts.ApplicationPackage.zipReader (t1 ++ [Call.zipReader false]) true =
      Result.ok testApplicationZip)
    (he2 : testApplicationZip.err = none) :
    (t1 ++ [Call.zipReader false] ++ [Call.zipReader true] ++
      [Call.SignRequest
        { URL := u, Method := "POST",
          Header := [("Content-Type", "multipart/form-data; boundary=" ++ w.boundary)],
          Body := RequestBody.multipart w.boundary
            [{ fieldname := "submitOptions", filename := none, content := "{}" },
             { fieldname := "applicationZip", filename := some "application.zip",
               content := applicationZip.data },
             { fieldname := "applicationTestZip", filename := some "application-test.zip",
               content := testApplicationZip.data }] }
        opts.Target.Deployment.Application.SerializedForm] <+: (Submit w opts t).2) ∧
    (∀ req key, Call.SignRequest req key ∈ (Submit w opts t).2 →
      Call.SignRequest req key ∈ t ∨
      ∃ zip testZip : String, req.Body = RequestBody.multipart w.boundary
        [{ fieldname := "submitOptions", filename := none, content := "{}" },
         { fieldname := "applicationZip", filename := some "application.zip", content := zip },
         { fieldname := "applicationTestZip", filename := some "application-test.zip",
           content := testZip }]) ∧
    (∀ (dst : List Part) (src : Reader) (fieldname filename : String), src.err = none →
      ∃ part, copyToPart dst src fieldname filename = Result.ok (dst ++ [part]) ∧
        part.fieldname = fieldname ∧ part.content = src.data ∧
        (part.filename = none ↔ filename = "") ∧
        (filename ≠ "" → part.filename = some filename)) := by
  refine ⟨?_, fun req key h => Submit_signed_body w opts t req key h, ?_⟩
  · have h1 : copyToPart [] (NewReader "{}") "submitOptions" "" =
        Result.ok [{ fieldname := "submitOptions", filename := none, content := "{}" }] := rfl
    have h2 : ∀ dst, copyToPart dst applicationZip "applicationZip" "application.zip" =
        Result.ok (dst ++
          [{ fieldname := "applicationZip", filename := some "application.zip",
             content := applicationZip.data }]) := by
      intro dst
      rw [(copyToPart_appends dst applicationZip "applicationZip" "application.zip").1 he1]
      rfl
    have h3 : ∀ dst, copyToPart dst testApplicationZip "applicationTestZip"
        "application-test.zip" =
        Result.ok (dst ++
          [{ fieldname := "applicationTestZip", filename := some "application-test.zip",
             content := testApplicationZip.data }]) := by
      intro dst
      rw [(copyToPart_appends dst testApplicationZip "applicationTestZip"
        "application-test.zip").1 he2]
      rfl
    unfold Submit
    simp only [hc, hcheck, hurl, h1, hz1, h2, hz2, h3, Bool.not_true, Bool.false_eq_true,
      if_false, List.nil_append, List.cons_append]
    split <;> [skip; split] <;> simp [List.append_assoc, List.prefix_append_right_inj]
  · intro dst src fieldname filename hsrc
    refine ⟨_, (copyToPart_appends dst src fieldname filename).1 hsrc, rfl, rfl, ?_, ?_⟩
    · by_cases hf : filename = "" <;> simp [hf]
    · intro hf
      simp [hf]

theorem Submit_multipart_body_witness :
    [Call.Service DeployService 0 0 ""] ++ [Call.zipReader false] ++ [Call.zipReader true] ++
      [Call.SignRequest
        { URL := { Host := "127.0.0.1:19071",
                   Text := "http://127.0.0.1:19071/application/v4/tenant/default/application"
                     ++ "/application/submit" },
          Method := "POST",
          Header := [("Content-Type", "multipart/form-data; boundary=" ++ sampleWorld.boundary)],
          Body := RequestBody.multipart sampleWorld.boundary
            [{ fieldname := "submitOptions", filename := none, content := "{}" },
             { fieldname := "applicationZip", filename := some "application.zip",
               content := "zip" },
             { fieldname := "applicationTestZip", filename := some "application-test.zip",
               content := "test-zip" }] }
        "default:application:default"] <+:
      (Submit sampleWorld
        (sampleOptions "hosted" ⟨"dev", "us-east-1"⟩ false (okResponse "")) []).2 :=
  (Submit_multipart_body sampleWorld
    (sampleOptions "hosted" ⟨"dev", "us-east-1"⟩ false (okResponse "")) []
    [Call.Service DeployService 0 0 ""]
    { Host := "127.0.0.1:19071",
      Text := "http://127.0.0.1:19071/application/v4/tenant/default/application"
        ++ "/application/submit" }
    { data := "zip", err := none } { data := "test-zip", err := none }
    (by decide) (by decide) (by decide) rfl rfl rfl rfl).1

/-! ## Signing before sending (claim C17) -/

/-- The sends of `uploadApplicationPackage` are of signed requests, and a failing
`SignRequest` ends it with that failure. -/
theorem uploadApplicationPackage_sendsSigned (w : World) (url : URL) (opts : DeploymentOptions)
    (t : Trace) :
    ∃ new, (uploadApplicationPackage w url opts t).2 = t ++ new ∧
      sendsSigned opts.Target.SignRequest opts.Target.Deployment.Application.SerializedForm
        t new ∧
      signFailureEnds opts.Target.SignRequest (uploadApplicationPackage w url opts t).1 t new := by
  unfold uploadApplicationPackage
  cases hz : opts.ApplicationPackage.zipReader t false with
  | fail f => exact ⟨[Call.zipReader false], rfl, by simp [sendsSigned], by simp [signFailureEnds]⟩
  | ok zip =>
    simp only
    cases hs : opts.Target.Service (t ++ [Call.zipReader false]) DeployService opts.Timeout 0 "" with
    | fail f =>
      exact ⟨[Call.zipReader false, Call.Service DeployService opts.Timeout 0 ""],
        by simp, by simp [sendsSigned], by simp [signFailureEnds]⟩
    | ok service =>
      simp only
      cases hg : opts.Target.SignRequest
          (t ++ [Call.zipReader false] ++ [Call.Service DeployService opts.Timeout 0 ""])
          (uploadRequest url zip) opts.Target.Deployment.Application.SerializedForm with
      | fail f =>
        refine ⟨[Call.zipReader false, Call.Service DeployService opts.Timeout 0 "",
          Call.SignRequest (uploadRequest url zip)
            opts.Target.Deployment.Application.SerializedForm],
          by simp, by simp [sendsSigned], ?_⟩
        simp only [signFailureEnds, and_true]
        refine ⟨by simp, by simp, ?_⟩
        intro unsigned key f2 hcall hfail
        cases hcall
        rw [hg] at hfail
        cases hfail
        exact ⟨trivial, rfl⟩
      | ok signed =>
        simp only
        have hsend : sendsSigned opts.Target.SignRequest
            opts.Target.Deployment.Application.SerializedForm t
            [Call.zipReader false, Call.Service DeployService opts.Timeout 0 "",
              Call.SignRequest (uploadRequest url zip)
                opts.Target.Deployment.Application.SerializedForm,
              Call.Do signed (Minute * 10)] := by
          simp only [sendsSigned, and_true]
          refine ⟨by simp, by simp, by simp, ?_⟩
          intro req hreq
          have hr : req = signed := by
            rcases hreq with ⟨d, hd⟩ | ⟨d, desc, hd⟩
            · cases hd; rfl
            · cases hd
          subst hr
          exact ⟨_, _, rfl, hg⟩
        have hends : ∀ result : Result PrepareResult,
            signFailureEnds opts.Target.SignRequest result t
              [Call.zipReader false, Call.Service DeployService opts.Timeout 0 "",
                Call.SignRequest (uploadRequest url zip)
                  opts.Target.Deployment.Application.SerializedForm,
                Call.Do signed (Minute * 10)] := by
          intro result
          simp only [signFailureEnds, and_true]
          refine ⟨by simp, by simp, ?_, by simp⟩
          intro unsigned key f2 hcall hfail
          cases hcall
          rw [hg] at hfail
          cases hfail
        cases hd : service.Do
            (t ++ [Call.zipReader false] ++ [Call.Service DeployService opts.Timeout 0 ""] ++
              [Call.SignRequest (uploadRequest url zip)
                opts.Target.Deployment.Application.SerializedForm])
            signed (Minute * 10) with
        | fail f => exact ⟨_, by simp, hsend, hends _⟩
        | ok response => exact ⟨_, by simp, hsend, hends _⟩

/-- The sends of `Submit` are of signed requests, and a failing `SignRequest`
ends it with that failure. -/
theorem Submit_sendsSigned (w : World) (opts : DeploymentOptions) (t : Trace) :
    ∃ new, (Submit w opts t).2 = t ++ new ∧
      sendsSigned opts.Target.SignRequest opts.Target.Deployment.Application.SerializedForm
        t new ∧
      signFailureEnds opts.Target.SignRequest (Submit w opts t).1 t new := by
  unfold Submit
  cases hc : opts.IsCloud with
  | false => exact ⟨[], by simp, by simp [sendsSigned], by simp [signFailureEnds]⟩
  | true =>
    simp only [Bool.not_true, Bool.false_eq_true, if_false]
    cases hcheck : checkDeploymentOpts opts with
    | some err => exact ⟨[], by simp, by simp [sendsSigned], by simp [signFailureEnds]⟩
    | none =>
      simp only
      unfold DeploymentOptions.url
      cases hs : opts.Target.Service t DeployService 0 0 "" with
      | fail f => exact ⟨[Call.Service DeployService 0 0 ""], by simp, by simp [sendsSigned], by simp [signFailureEnds]⟩
      | ok service =>
        simp only
        cases hu : w.urlParse (service.BaseURL ++ ("/application/v4/tenant/"
            ++ opts.Target.Deployment.Application.Tenant
            ++ "/application/" ++ opts.Target.Deployment.Application.Application
            ++ "/submit")) with
        | fail f => exact ⟨[Call.Service DeployService 0 0 ""], by simp, by simp [sendsSigned], by simp [signFailureEnds]⟩
        | ok u =>
          simp only
          have h1 : copyToPart [] (NewReader "{}") "submitOptions" "" =
              Result.ok [{ fieldname := "submitOptions", filename := none, content := "{}" }] :=
            rfl
          simp only [h1]
          cases hz1 : opts.ApplicationPackage.zipReader
              (t ++ [Call.Service DeployService 0 0 ""]) false with
          | fail f =>
            exact ⟨[Call.Service DeployService 0 0 "", Call.zipReader false], by simp,
              by simp [sendsSigned], by simp [signFailureEnds]⟩
          | ok z1 =>
            simp only
            cases hp2 : copyToPart
                [{ fieldname := "submitOptions", filename := none, content := "{}" }] z1
                "applicationZip" "application.zip" with
            | fail f =>
              exact ⟨[Call.Service DeployService 0 0 "", Call.zipReader false], by simp,
                by simp [sendsSigned], by simp [signFailureEnds]⟩
            | ok parts2 =>
              simp only
              cases hz2 : opts.ApplicationPackage.zipReader
                  (t ++ [Call.Service DeployService 0 0 ""] ++ [Call.zipReader false]) true with
              | fail f =>
                exact ⟨[Call.Service DeployService 0 0 "", Call.zipReader false,
                  Call.zipReader true], by simp, by simp [sendsSigned], by simp [signFailureEnds]⟩
              | ok z2 =>
                simp only
                cases hp3 : copyToPart parts2 z2 "applicationTestZip" "application-test.zip" with
                | fail f =>
                  exact ⟨[Call.Service DeployService 0 0 "", Call.zipReader false,
                    Call.zipReader true], by simp, by simp [sendsSigned], by simp [signFailureEnds]⟩
                | ok parts3 =>
                  simp only
                  cases hg : opts.Target.SignRequest
                      (t ++ [Call.Service DeployService 0 0 ""] ++ [Call.zipReader false] ++
                        [Call.zipReader true])
                      { URL := u, Method := "POST",
                        Header := [("Content-Type",
                          "multipart/form-data; boundary=" ++ w.boundary)],
                        Body := RequestBody.multipart w.boundary parts3 }
                      opts.Target.Deployment.Application.SerializedForm with
                  | fail f =>
                    refine ⟨[Call.Service DeployService 0 0 "", Call.zipReader false,
                      Call.zipReader true,
                      Call.SignRequest
                        { URL := u, Method := "POST",
                          Header := [("Content-Type",
                            "multipart/form-data; boundary=" ++ w.boundary)],
                          Body := RequestBody.multipart w.boundary parts3 }
                        opts.Target.Deployment.Application.SerializedForm],
                      by simp, by simp [sendsSigned], ?_⟩
                    simp only [signFailureEnds, and_true]
                    refine ⟨by simp, by simp, by simp, ?_⟩
                    intro unsigned key f2 hcall hfail
                    cases hcall
                    rw [hg] at hfail
                    cases hfail
                    exact ⟨trivial, rfl⟩
                  | ok signed =>
                    simp only
                    have hsend : sendsSigned opts.Target.SignRequest
                        opts.Target.Deployment.Application.SerializedForm t
                        [Call.Service DeployService 0 0 "", Call.zipReader false,
                          Call.zipReader true,
                          Call.SignRequest
                            { URL := u, Method := "POST",
                              Header := [("Content-Type",
                                "multipart/form-data; boundary=" ++ w.boundary)],
                              Body := RequestBody.multipart w.boundary parts3 }
                            opts.Target.Deployment.Application.SerializedForm,
                          Call.HttpDo signed (Minute * 10)
                            opts.Target.Deployment.Application.SerializedForm] := by
                      simp only [sendsSigned, and_true]
                      refine ⟨by simp, by simp, by simp, by simp, ?_⟩
                      intro req hreq
                      have hr : req = signed := by
                        rcases hreq with ⟨d, hd⟩ | ⟨d, desc, hd⟩
                        · cases hd
                        · cases hd; rfl
                      subst hr
                      exact ⟨_, _, rfl, hg⟩
                    have hends : ∀ result : Result Unit,
                        signFailureEnds opts.Target.SignRequest result t
                          [Call.Service DeployService 0 0 "", Call.zipReader false,
                            Call.zipReader true,
                            Call.SignRequest
                              { URL := u, Method := "POST",
                                Header := [("Content-Type",
                                  "multipart/form-data; boundary=" ++ w.boundary)],
                                Body := RequestBody.multipart w.boundary parts3 }
                              opts.Target.Deployment.Application.SerializedForm,
                            Call.HttpDo signed (Minute * 10)
                              opts.Target.Deployment.Application.SerializedForm] := by
                      intro result
                      simp only [signFailureEnds, and_true]
                      refine ⟨by simp, by simp, by simp, ?_, by simp⟩
                      intro unsigned key f2 hcall hfail
                      cases hcall
                      rw [hg] at hfail
                      cases hfail
                    cases hd : w.HttpDo
                        (t ++ [Call.Service DeployService 0 0 ""] ++ [Call.zipReader false] ++
                          [Call.zipReader true] ++
                          [Call.SignRequest
                            { URL := u, Method := "POST",
                              Header := [("Content-Type",
                                "multipart/form-data; boundary=" ++ w.boundary)],
                              Body := RequestBody.multipart w.boundary parts3 }
                            opts.Target.Deployment.Application.SerializedForm])
                        signed (Minute * 10)
                        opts.Target.Deployment.Application.SerializedForm with
                    | fail f => exact ⟨_, by simp, hsend, hends _⟩
                    | ok response => exact ⟨_, by simp, hsend, hends _⟩

/-- A send that no `SignRequest` precedes does not satisfy `sendsSigned`. -/
theorem sendsSigned_rejects_unsigned (sign : Trace → Request → String → Result Request)
    (key : String) (req : Request) (d : Duration) (desc : String) :
    ¬ sendsSigned sign key [] [Call.Service DeployService 0 0 "", Call.HttpDo req d desc] := by
  intro h
  simp only [sendsSigned] at h
  obtain ⟨pre, unsigned, hpre, _⟩ := h.2.1 req (Or.inr ⟨d, desc, rfl⟩)
  have hl := congrArg List.getLast? hpre
  simp at hl

/-- C17: in `uploadApplicationPackage` and in `Submit` every request that is
sent (with `Service.Do`, with `util.HttpDo`) is the request that the call right
before handed to `Target.SignRequest` and got back signed, with the key id
tenant ":" application ":" instance of the target's application, the field
order of the dotted form; when `SignRequest` fails it is the last call, so
nothing is sent, and its error is what the function returns. -/
theorem sent_requests_are_signed (w : World) (url : URL) (opts : DeploymentOptions)
    (t : Trace) :
    (opts.Target.Deployment.Application.SerializedForm =
        opts.Target.Deployment.Application.Tenant ++ ":" ++
          opts.Target.Deployment.Application.Application ++ ":" ++
          opts.Target.Deployment.Application.Instance ∧
      opts.Target.Deployment.Application.String =
        opts.Target.Deployment.Application.Tenant ++ "." ++
          opts.Target.Deployment.Application.Application ++ "." ++
          opts.Target.Deployment.Application.Instance) ∧
    (∃ new, (uploadApplicationPackage w url opts t).2 = t ++ new ∧
      sendsSigned opts.Target.SignRequest opts.Target.Deployment.Application.SerializedForm
        t new ∧
      signFailureEnds opts.Target.SignRequest (uploadApplicationPackage w url opts t).1 t new) ∧
    (∃ new, (Submit w opts t).2 = t ++ new ∧
      sendsSigned opts.Target.SignRequest opts.Target.Deployment.Application.SerializedForm
        t new ∧
      signFailureEnds opts.Target.SignRequest (Submit w opts t).1 t new) :=
  ⟨⟨rfl, rfl⟩, uploadApplicationPackage_sendsSigned w url opts t, Submit_sendsSigned w opts t⟩

/-! ## Prepare on a self-hosted target (claim C18) -/

/-- When `Prepare` returns a result, every step succeeded, the result is the
one the upload returned, and the last call is the PUT that was classified as
success. -/
theorem Prepare_ok_only_if (w : World) (deployment : DeploymentOptions) (t tr : Trace)
    (r : PrepareResult) (h : Prepare w deployment t = (Result.ok r, tr)) :
    deployment.IsCloud = false ∧
    ∃ sessionURL t1 t2 prepareURL t3 u response,
      deployment.url w "/application/v2/tenant/default/session" t = (Result.ok sessionURL, t1) ∧
      uploadApplicationPackage w sessionURL deployment t1 = (Result.ok r, t2) ∧
      deployment.url w
        ("/application/v2/tenant/default/session/" ++ toString r.ID ++ "/prepared") t2 =
          (Result.ok prepareURL, t3) ∧
      w.urlParse prepareURL.Text = Result.ok u ∧
      w.HttpDo t3 { URL := u, Method := "PUT", Header := [], Body := RequestBody.none }
        (Second * 30) "Deploy service" = Result.ok response ∧
      checkResponse w { URL := u, Method := "PUT", Header := [], Body := RequestBody.none }
        response "Deploy service" = Result.ok () ∧
      tr = t3 ++ [Call.HttpDo { URL := u, Method := "PUT", Header := [], Body := RequestBody.none }
        (Second * 30) "Deploy service"] := by
  unfold Prepare at h
  split at h
  · cases h
  · next hc =>
    refine ⟨by simpa using hc, ?_⟩
    split at h
    · cases h
    · next sessionURL t1 h1 =>
      split at h
      · cases h
      · next result t2 h2 =>
        split at h
        · cases h
        · next prepareURL t3 h3 =>
          unfold NewRequest at h
          cases hp : w.urlParse prepareURL.Text with
          | fail f =>
            rw [hp] at h
            cases h
          | ok u =>
            rw [hp] at h
            simp only at h
            split at h
            · cases h
            · next response hd =>
              split at h
              · cases h
              · next hcr =>
                simp only [Prod.mk.injEq, Result.ok.injEq] at h
                obtain ⟨hr, htr⟩ := h
                subst hr
                exact ⟨sessionURL, t1, t2, prepareURL, t3, u, response, h1, h2, h3, hp, hd,
                  hcr, htr.symm⟩

/-- C18: on a self-hosted target `Prepare` uploads to the session URL, then
resolves "/application/v2/tenant/default/session/ID/prepared" with the decimal
id the upload returned and issues a PUT to it.  It returns the upload result
exactly when that PUT is classified as success; when the first resolution, the
upload, the second resolution, the making of the request, the PUT or its
classification fails, `Prepare` returns that failure (and no result). -/
theorem Prepare_self_hosted (w : World) (deployment : DeploymentOptions) (t : Trace)
    (hself : deployment.IsCloud = false) :
    (∀ f t1, deployment.url w "/application/v2/tenant/default/session" t = (Result.fail f, t1) →
      Prepare w deployment t = (Result.fail f, t1)) ∧
    (∀ sessionURL t1 f t2,
      deployment.url w "/application/v2/tenant/default/session" t = (Result.ok sessionURL, t1) →
      uploadApplicationPackage w sessionURL deployment t1 = (Result.fail f, t2) →
      Prepare w deployment t = (Result.fail f, t2)) ∧
    (∀ sessionURL t1 result t2,
      deployment.url w "/application/v2/tenant/default/session" t = (Result.ok sessionURL, t1) →
      uploadApplicationPackage w sessionURL deployment t1 = (Result.ok result, t2) →
      (∀ f t3, deployment.url w
          ("/application/v2/tenant/default/session/" ++ toString result.ID ++ "/prepared") t2 =
            (Result.fail f, t3) →
        Prepare w deployment t = (Result.fail f, t3)) ∧
      (∀ prepareURL t3, deployment.url w
          ("/application/v2/tenant/default/session/" ++ toString result.ID ++ "/prepared") t2 =
            (Result.ok prepareURL, t3) →
        (∀ f, w.urlParse prepareURL.Text = Result.fail f →
          Prepare w deployment t = (Result.fail f, t3)) ∧
        (∀ u, w.urlParse prepareURL.Text = Result.ok u →
          (∀ f, w.HttpDo t3 { URL := u, Method := "PUT", Header := [], Body := RequestBody.none }
              (Second * 30) "Deploy service" = Result.fail f →
            Prepare w deployment t = (Result.fail f, t3 ++
              [Call.HttpDo { URL := u, Method := "PUT", Header := [], Body := RequestBody.none }
                (Second * 30) "Deploy service"])) ∧
          (∀ response,
            w.HttpDo t3 { URL := u, Method := "PUT", Header := [], Body := RequestBody.none }
              (Second * 30) "Deploy service" = Result.ok response →
            (∀ f, checkResponse w
                { URL := u, Method := "PUT", Header := [], Body := RequestBody.none }
                response "Deploy service" = Result.fail f →
              Prepare w deployment t = (Result.fail f, t3 ++
                [Call.HttpDo { URL := u, Method := "PUT", Header := [], Body := RequestBody.none }
                  (Second * 30) "Deploy service"])) ∧
            (checkResponse w
                { URL := u, Method := "PUT", Header := [], Body := RequestBody.none }
                response "Deploy service" = Result.ok () →
              Prepare w deployment t = (Result.ok result, t3 ++
                [Call.HttpDo { URL := u, Method := "PUT", Header := [], Body := RequestBody.none }
                  (Second * 30) "Deploy service"])))))) ∧
    (∀ r tr, Prepare w deployment t = (Result.ok r, tr) →
      ∃ sessionURL t1 t2 prepareURL t3 u response,
        deployment.url w "/application/v2/tenant/default/session" t =
          (Result.ok sessionURL, t1) ∧
        uploadApplicationPackage w sessionURL deployment t1 = (Result.ok r, t2) ∧
        deployment.url w
          ("/application/v2/tenant/default/session/" ++ toString r.ID ++ "/prepared") t2 =
            (Result.ok prepareURL, t3) ∧
        w.urlParse prepareURL.Text = Result.ok u ∧
        w.HttpDo t3 { URL := u, Method := "PUT", Header := [], Body := RequestBody.none }
          (Second * 30) "Deploy service" = Result.ok response ∧
        checkResponse w { URL := u, Method := "PUT", Header := [], Body := RequestBody.none }
          response "Deploy service" = Result.ok () ∧
        tr = t3 ++
          [Call.HttpDo { URL := u, Method := "PUT", Header := [], Body := RequestBody.none }
            (Second * 30) "Deploy service"]) := by
  refine ⟨?_, ?_, ?_, fun r tr h => (Prepare_ok_only_if w deployment t tr r h).2⟩
  · intro f t1 h1
    simp [Prepare, hself, h1]
  · intro sessionURL t1 f t2 h1 h2
    simp [Prepare, hself, h1, h2]
  · intro sessionURL t1 result t2 h1 h2
    constructor
    · intro f t3 h3
      simp [Prepare, hself, h1, h2, h3]
    · intro prepareURL t3 h3
      constructor
      · intro f hp
        simp [Prepare, hself, h1, h2, h3, NewRequest, hp]
      · intro u hp
        constructor
        · intro f hd
          simp [Prepare, hself, h1, h2, h3, NewRequest, hp, hd]
        · intro response hd
          constructor
          · intro f hc
            simp [Prepare, hself, h1, h2, h3, NewRequest, hp, hd, hc]
          · intro hc
            simp [Prepare, hself, h1, h2, h3, NewRequest, hp, hd, hc]

theorem Prepare_self_hosted_witness :
    Prepare sampleWorld (sampleOptions "local" ⟨"", ""⟩ false (okResponse sessionBody)) [] =
      (Result.ok { ID := 42, LogLines := [{ Time := 1, Level := "info", Message := "ok" }] },
       [Call.Service DeployService 0 0 "", Call.zipReader false,
        Call.Service DeployService 0 0 "",
        Call.SignRequest sampleUpload "default:application:default",
        Call.Do sampleUpload (Minute * 10), Call.Service DeployService 0 0 ""] ++
       [Call.HttpDo
          { URL := { Host := "127.0.0.1:19071",
                     Text := "http://127.0.0.1:19071/application/v2/tenant/default/session/42/prepared" },
            Method := "PUT", Header := [], Body := RequestBody.none }
          (Second * 30) "Deploy service"]) :=
  (((((Prepare_self_hosted sampleWorld
      (sampleOptions "local" ⟨"", ""⟩ false (okResponse sessionBody)) [] (by decide)).2.2.1
      sampleURL [Call.Service DeployService 0 0 ""]
      { ID := 42, LogLines := [{ Time := 1, Level := "info", Message := "ok" }] }
      [Call.Service DeployService 0 0 "", Call.zipReader false,
        Call.Service DeployService 0 0 "",
        Call.SignRequest sampleUpload "default:application:default",
        Call.Do sampleUpload (Minute * 10)]
      (by decide) (by decide)).2
      { Host := "127.0.0.1:19071",
        Text := "http://127.0.0.1:19071/application/v2/tenant/default/session/42/prepared" }
      [Call.Service DeployService 0 0 "", Call.zipReader false,
        Call.Service DeployService 0 0 "",
        Call.SignRequest sampleUpload "default:application:default",
        Call.Do sampleUpload (Minute * 10), Call.Service DeployService 0 0 ""]
      (by decide)).2
      { Host := "127.0.0.1:19071",
        Text := "http://127.0.0.1:19071/application/v2/tenant/default/session/42/prepared" }
      rfl).2
      { StatusCode := 200, Status := "200 OK", Body := "" } rfl).2 rfl

end Vespa
